import Mathlib

/-
Verification development for the anemoi-inference runner
(src/src/anemoi/inference/runner.py).

The runner turns retrieved meteorological fields into a lagged state
tensor matching a model's feature contract and drives an autoregressive
rollout.  This file gives a shallow embedding of that code:

* tensors are total functions indexed by (lag, feature, grid point) —
  the (L, N, G) shape and the float32 dtype of the numpy arrays are
  type-level artefacts of the embedding (a function embedding cannot
  change its shape or dtype across steps);
* float32 cell values are modelled by FVal (an integer or NaN) where NaN
  detection matters, and by plain Int inside the rollout;
* the external collaborators (climetlab constants/forcing source, the
  torch model, the checkpoint maps) are parameters of the definitions;
* numpy fancy-index assignment with an index list is modelled by a left
  fold of pointwise functional updates (later writes win, exactly as in
  numpy).

Each definition carries a comment pointing at the source lines it
translates.
-/

/-- Cell value of the float32 arrays: either NaN or a numeric value
(numerics are modelled as integers; no claim here involves rounding). -/
inductive FVal where
  | nan : FVal
  | num : Int → FVal
deriving DecidableEq

/-- Translation of numpy.isnan on a single cell. -/
def FVal.isNaN : FVal → Bool
  | .nan => true
  | .num _ => false

/-- State tensor indexed by (lag slot, feature index, grid point). -/
def Tensor (α : Type) : Type := Nat → Nat → Nat → α

/-- Translation of Runner.lagged (runner.py lines 383-387):
result = list(range(0, multi_step)); result = [-s * hour_steps for s in result];
return sorted(result). -/
def lagged (multi_step hour_steps : Nat) : List Int :=
  List.insertionSort (fun a b => a ≤ b)
    ((List.range multi_step).map (fun (s : Nat) => -((s : Int) * (hour_steps : Int))))

/-- Closed form of the sorted lag-offset list:
[-(m-1)*h, ..., -h, 0] (ascending). -/
def laggedClosedForm (multi_step hour_steps : Nat) : List Int :=
  (List.range multi_step).map
    (fun (j : Nat) => -(((multi_step - 1 - j : Nat) : Int) * (hour_steps : Int)))

theorem range_reverse_eq (m : Nat) :
    (List.range m).reverse = (List.range m).map (fun j => m - 1 - j) := by
  apply List.ext_getElem
  · simp
  · intro i h1 h2
    simp only [List.getElem_reverse, List.getElem_map, List.getElem_range,
      List.length_range, List.length_reverse] at *

theorem laggedClosedForm_eq_reverse (m h : Nat) :
    laggedClosedForm m h
      = (((List.range m).map (fun (s : Nat) => -((s : Int) * (h : Int))))).reverse := by
  rw [laggedClosedForm, ← List.map_reverse, range_reverse_eq, List.map_map]
  rfl

theorem sorted_laggedClosedForm (m h : Nat) :
    List.Sorted (fun a b => a ≤ b) (laggedClosedForm m h) := by
  rw [laggedClosedForm, List.Sorted, List.pairwise_map]
  apply (List.pairwise_lt_range m).imp
  intro a b hab
  have hn : (m - 1 - b) * h ≤ (m - 1 - a) * h :=
    Nat.mul_le_mul_right _ (by omega)
  have hz : ((m - 1 - b : Nat) : Int) * (h : Int) ≤ ((m - 1 - a : Nat) : Int) * (h : Int) := by
    exact_mod_cast hn
  omega

theorem lagged_eq_closedForm (m h : Nat) :
    lagged m h = laggedClosedForm m h := by
  apply List.eq_of_perm_of_sorted (r := fun a b : Int => a ≤ b)
  · refine (List.perm_insertionSort _ _).trans ?_
    rw [laggedClosedForm_eq_reverse]
    exact (List.reverse_perm _).symm
  · exact List.sorted_insertionSort _ _
  · exact sorted_laggedClosedForm m h

theorem laggedClosedForm_getD (m h : Nat) (j : Nat) (hj : j < m) :
    (laggedClosedForm m h).getD j 0
      = -(((m - 1 - j : Nat) : Int) * (h : Int)) := by
  rw [laggedClosedForm, List.getD_eq_getElem _ _ (by simpa using hj)]
  simp

/-- C10: the lag-offset list has exactly multi_step elements, all
non-positive multiples of hour_steps, sorted non-descending, equal to
[-(m-1)*h, ..., -h, 0]; its newest (last) entry is 0, so the assembly
forcing date start + lagged[L-1] for the newest lag slot equals the start
datetime, and consecutive entries are exactly hour_steps apart. -/
theorem c10_lagged_structure (m h : Nat) (hm : 1 ≤ m) :
    (lagged m h).length = m
  ∧ (∀ x ∈ lagged m h, x ≤ 0 ∧ ∃ s : Nat, x = -((s : Int) * (h : Int)))
  ∧ List.Sorted (fun a b => a ≤ b) (lagged m h)
  ∧ lagged m h = laggedClosedForm m h
  ∧ (lagged m h).getD (m - 1) 0 = 0
  ∧ (∀ start : Int, start + (lagged m h).getD (m - 1) 0 = start)
  ∧ (∀ j, j + 1 < m →
      (lagged m h).getD (j + 1) 0 - (lagged m h).getD j 0 = (h : Int)) := by
  have hlast : (lagged m h).getD (m - 1) 0 = 0 := by
    rw [lagged_eq_closedForm, laggedClosedForm_getD m h (m - 1) (by omega)]
    have : m - 1 - (m - 1) = 0 := by omega
    rw [this]
    simp
  refine ⟨?_, ?_, ?_, lagged_eq_closedForm m h, hlast, ?_, ?_⟩
  · rw [lagged]
    rw [(List.perm_insertionSort _ _).length_eq]
    simp
  · intro x hx
    rw [lagged] at hx
    have hx' := (List.perm_insertionSort (fun a b : Int => a ≤ b) _).mem_iff.mp hx
    rcases List.mem_map.mp hx' with ⟨s, hs, rfl⟩
    constructor
    · have : (0 : Int) ≤ (s : Int) * (h : Int) := by positivity
      omega
    · exact ⟨s, rfl⟩
  · rw [lagged_eq_closedForm]
    exact sorted_laggedClosedForm m h
  · intro start
    rw [hlast]
    ring
  · intro j hj
    rw [lagged_eq_closedForm, laggedClosedForm_getD m h (j + 1) hj,
      laggedClosedForm_getD m h j (by omega)]
    have hstep : m - 1 - j = (m - 1 - (j + 1)) + 1 := by omega
    rw [hstep]
    push_cast
    ring

theorem c10_lagged_structure_witness :
    1 ≤ 2 ∧ (lagged 2 6).length = 2 ∧ (lagged 2 6).getD (2 - 1) 0 = 0 :=
  ⟨by decide, (c10_lagged_structure 2 6 (by decide)).1,
   (c10_lagged_structure 2 6 (by decide)).2.2.2.2.1⟩

/-- External checkpoint object (opaque beyond the path it wraps). -/
structure Checkpoint where
  path : String
deriving DecidableEq

/-- Translation of Runner.__init__ (runner.py lines 38-44).  The branch
receiving a string builds Checkpoint(self, checkpoint) but binds it only to
the local variable; the attribute self.checkpoint is assigned only in the
else branch.  The possibly-missing attribute is an Option. -/
def runner_init (arg : Sum String Checkpoint) : Option Checkpoint :=
  match arg with
  | Sum.inl s =>
      let _constructed := Checkpoint.mk s
      none
  | Sum.inr c => some c

/-- Outcome of entering Runner.run: its first statement (line 58) reads
self.checkpoint, so a missing attribute raises AttributeError before any
other work. -/
inductive RunStart where
  | attributeError : RunStart
  | started : Checkpoint → RunStart
deriving DecidableEq

def run_first_access (checkpoint_attr : Option Checkpoint) : RunStart :=
  match checkpoint_attr with
  | none => RunStart.attributeError
  | some c => RunStart.started c

/-- C9: constructing a Runner from a string checkpoint path builds a
Checkpoint object but never assigns the checkpoint attribute — only the
branch receiving an already-built Checkpoint stores it — so run, which
reads self.checkpoint first, fails with a missing-attribute error before
doing any work. -/
theorem c9_string_checkpoint_not_stored :
    (∀ s : String, runner_init (Sum.inl s) = none
        ∧ run_first_access (runner_init (Sum.inl s)) = RunStart.attributeError)
  ∧ (∀ c : Checkpoint, runner_init (Sum.inr c) = some c
        ∧ run_first_access (runner_init (Sum.inr c)) = RunStart.started c) :=
  ⟨fun _ => ⟨rfl, rfl⟩, fun _ => ⟨rfl, rfl⟩⟩

/-- Sink events, translating the output_callback call shapes of run.
Template fields are represented by their valid-datetime; the raw input
fields by their list of valid-datetimes; grid vectors by lists of length G. -/
inductive Emission where
  | initial_fields : List Int → Emission
  | initial_with_diagnostics : List Int → List String → Int → Nat → Emission
  | prognostic_emission : List Int → Int → Nat → Emission
  | accumulation_emission : List Int → Int → Nat → Nat → String → Emission
deriving DecidableEq

/-- Step number attached to a per-step emission (the step keyword of a
prognostic emission, the endStep keyword of an accumulation emission). -/
def Emission.stepNumber : Emission → Option Nat
  | Emission.prognostic_emission _ _ s => some s
  | Emission.accumulation_emission _ _ _ e _ => some e
  | _ => none

def Emission.isInitial : Emission → Bool
  | Emission.initial_fields _ => true
  | Emission.initial_with_diagnostics _ _ _ _ => true
  | _ => false

/-- Configuration and collaborators of one Runner.run call, with the field
names used by the source (checkpoint attributes, local variables, external
hooks).  forcing_and_constants models the climetlab hook at a fixed source
and parameter list, as a function of the date and the (parameter, grid)
position; predict_step models the opaque model. -/
structure RunParams where
  L : Nat
  G : Nat
  prognostic_input_mask : List Nat
  constants_from_input_mask : List Nat
  computed_constants_mask : List Nat
  computed_forcings_mask : List Nat
  prognostic_output_mask : List Nat
  diagnostic_output_mask : List Nat
  prognostic_params : List String
  diagnostic_params : List String
  prognostic_data_from_retrieved_fields_mask : List Nat
  hour_steps : Nat
  lead_time : Nat
  start_datetime : Int
  reference_dts : List Int
  precip_template_index : Nat
  forcing_and_constants : Int → Nat → Nat → Int
  predict_step : Tensor Int → Nat → Nat → Int

/-- Translation of the loop bound (line 291): range(lead_time // self.hour_steps). -/
def numSteps (P : RunParams) : Nat := P.lead_time / P.hour_steps

/-- Translation of input_tensor_torch.roll(-1, dims=1) (line 351) on the
lag dimension: slot l of the rolled tensor is slot (l+1) mod L of the
original, so the oldest slot is discarded and the previously-oldest values
wrap into the newest slot before being overwritten. -/
def rollTensor (L : Nat) (t : Tensor Int) : Tensor Int :=
  fun l f g => t ((l + 1) % L) f g

/-- Pointwise update of one feature of one lag slot. -/
def writeSlotFeat {α : Type} (t : Tensor α) (l0 f0 : Nat) (v : Nat → α) : Tensor α :=
  fun l f g => if l = l0 ∧ f = f0 then v g else t l f g

/-- Fancy-index assignment t[l0, mask] = v on one lag slot: sequential
pointwise writes, position mask[j] receiving row j of v (later writes win,
as in numpy/torch). -/
def writeSlotMaskFrom {α : Type} (l0 : Nat) (v : Nat → Nat → α) :
    Nat → List Nat → Tensor α → Tensor α
  | _, [], t => t
  | j, f :: rest, t =>
      writeSlotMaskFrom l0 v (j + 1) rest (writeSlotFeat t l0 f (fun g => v j g))

def writeSlotMask {α : Type} (t : Tensor α) (l0 : Nat) (mask : List Nat)
    (v : Nat → Nat → α) : Tensor α :=
  writeSlotMaskFrom l0 v 0 mask t

/-- Translation of the diagnostic accumulate-and-emit loop (lines 320-334):
for n over diagnostic_params, accumulated_output[n] += max(0, diagnostic
value of variable n) and the updated row n is emitted as an accumulation
(stepType accum, template precip_template, startStep 0, endStep step). -/
def accumEmitLoop (G : Nat) (precip_dt : Int) (step : Nat)
    (diagnostic_params : List String) (dvals : Nat → Nat → Int)
    (acc : Nat → Nat → Int) : List Emission × (Nat → Nat → Int) :=
  (List.range diagnostic_params.length).foldl
    (fun (st : List Emission × (Nat → Nat → Int)) n =>
      (st.1 ++ [Emission.accumulation_emission
          ((List.range G).map (fun g => st.2 n g + max 0 (dvals n g)))
          precip_dt 0 step (diagnostic_params.getD n "")],
       fun m g => if m = n then st.2 m g + max 0 (dvals n g) else st.2 m g))
    ([], acc)

theorem accumEmitLoop_aux (G : Nat) (precip_dt : Int) (step : Nat)
    (dp : List String) (dvals acc : Nat → Nat → Int) : ∀ k : Nat,
    (List.range k).foldl
      (fun (st : List Emission × (Nat → Nat → Int)) n =>
        (st.1 ++ [Emission.accumulation_emission
            ((List.range G).map (fun g => st.2 n g + max 0 (dvals n g)))
            precip_dt 0 step (dp.getD n "")],
         fun m g => if m = n then st.2 m g + max 0 (dvals n g) else st.2 m g))
      ([], acc)
      = ((List.range k).map (fun n =>
            Emission.accumulation_emission
              ((List.range G).map (fun g => acc n g + max 0 (dvals n g)))
              precip_dt 0 step (dp.getD n "")),
         fun m g => if m < k then acc m g + max 0 (dvals m g) else acc m g)
  | 0 => by
      have h2 : (fun m g => if m < 0 then acc m g + max 0 (dvals m g) else acc m g)
          = acc := by
        funext m g
        simp
      simp [h2]
  | k + 1 => by
      rw [List.range_succ, List.foldl_append,
        accumEmitLoop_aux G precip_dt step dp dvals acc k]
      simp only [List.foldl_cons, List.foldl_nil, List.map_append, List.map_cons,
        List.map_nil, Prod.mk.injEq]
      constructor
      · congr 1
        simp [Nat.lt_irrefl]
      · funext m g
        by_cases h1 : m = k
        · subst h1
          simp [Nat.lt_irrefl]
        · by_cases h2 : m < k
          · simp [h1, h2, Nat.lt_succ_of_lt h2]
          · have h3 : ¬ m < k + 1 := by omega
            simp [h1, h2, h3]

theorem accumEmitLoop_eq (G : Nat) (precip_dt : Int) (step : Nat)
    (dp : List String) (dvals acc : Nat → Nat → Int) :
    accumEmitLoop G precip_dt step dp dvals acc
      = ((List.range dp.length).map (fun n =>
            Emission.accumulation_emission
              ((List.range G).map (fun g => acc n g + max 0 (dvals n g)))
              precip_dt 0 step (dp.getD n "")),
         fun m g => if m < dp.length then acc m g + max 0 (dvals m g)
           else acc m g) :=
  accumEmitLoop_aux G precip_dt step dp dvals acc dp.length

/-- Translation of one iteration of the rollout loop (lines 291-353):
predict, emit prognostic fields (one per entry of the zip of
prognostic_data_from_retrieved_fields_mask with prognostic_params, tagged
with its reference-field template and the step number), accumulate and emit
diagnostics when the diagnostic mask is non-empty, recompute forcing at
start_datetime + step hours, then advance the window (roll, overwrite the
newest slot at the prognostic-input and computed-forcing positions). -/
def stepEmissions (P : RunParams) (i : Nat)
    (st : Tensor Int × (Nat → Nat → Int)) :
    List Emission × (Tensor Int × (Nat → Nat → Int)) :=
  let step := (i + 1) * P.hour_steps
  let y := P.predict_step st.1
  let nprog := min P.prognostic_data_from_retrieved_fields_mask.length
    P.prognostic_params.length
  let progEmis := (List.range nprog).map (fun n =>
    Emission.prognostic_emission
      ((List.range P.G).map (fun g => y (P.prognostic_output_mask.getD n 0) g))
      (P.reference_dts.getD
        (P.prognostic_data_from_retrieved_fields_mask.getD n 0) 0)
      step)
  let diagPart :=
    if P.diagnostic_output_mask.length = 0 then (([] : List Emission), st.2)
    else accumEmitLoop P.G (P.reference_dts.getD P.precip_template_index 0)
      step P.diagnostic_params
      (fun n g => y (P.diagnostic_output_mask.getD n 0) g) st.2
  let forcing := fun (j g : Nat) =>
    P.forcing_and_constants (P.start_datetime + (step : Int)) j g
  let t2 := rollTensor P.L st.1
  let t3 := writeSlotMask t2 (P.L - 1) P.prognostic_input_mask
    (fun j g => y (P.prognostic_output_mask.getD j 0) g)
  let t4 := writeSlotMask t3 (P.L - 1) P.computed_forcings_mask forcing
  (progEmis ++ diagPart.1, (t4, diagPart.2))

/-- Rollout state (tensor, accumulator) after k iterations, starting from
the assembled tensor t0 and the zero accumulator (line 255). -/
def stateAfterK (P : RunParams) (t0 : Tensor Int) : Nat → Tensor Int × (Nat → Nat → Int)
  | 0 => (t0, fun _ _ => 0)
  | k + 1 => (stepEmissions P k (stateAfterK P t0 k)).2

/-- Emissions produced by iteration k of the rollout loop. -/
def batchK (P : RunParams) (t0 : Tensor Int) (k : Nat) : List Emission :=
  (stepEmissions P k (stateAfterK P t0 k)).1

/-- Translation of the initialization emission (lines 260-268): when
diagnostic_params is non-empty the sink receives the raw input fields, the
diagnostic parameter list, the precip template and the accumulator row
shape; otherwise the raw input fields alone. -/
def initEmission (P : RunParams) (input_dts : List Int) : Emission :=
  if P.diagnostic_params.isEmpty then Emission.initial_fields input_dts
  else Emission.initial_with_diagnostics input_dts P.diagnostic_params
    (P.reference_dts.getD P.precip_template_index 0) P.G

/-- Complete ordered emission sequence of one run: the initialization
emission followed by the per-iteration batches of the rollout loop. -/
def runTrace (P : RunParams) (t0 : Tensor Int) (input_dts : List Int) : List Emission :=
  initEmission P input_dts :: (List.range (numSteps P)).flatMap (batchK P t0)

/-- Every emission of iteration k is a per-step emission (never an
initialization call) tagged with step number (k+1) * hour_steps. -/
theorem batchK_mem_spec (P : RunParams) (t0 : Tensor Int) (k : Nat) :
    ∀ e ∈ batchK P t0 k,
      Emission.isInitial e = false
        ∧ e.stepNumber = some ((k + 1) * P.hour_steps) := by
  intro e he
  rw [batchK, stepEmissions] at he
  simp only at he
  rcases List.mem_append.mp he with h1 | h1
  · rcases List.mem_map.mp h1 with ⟨n, _, rfl⟩
    exact ⟨rfl, rfl⟩
  · by_cases hd : P.diagnostic_output_mask.length = 0
    · rw [if_pos hd] at h1
      simp at h1
    · rw [if_neg hd, accumEmitLoop_eq] at h1
      rcases List.mem_map.mp h1 with ⟨n, _, rfl⟩
      exact ⟨rfl, rfl⟩

/-- C5: the rollout executes exactly lead_time / hour_steps iterations
(floor division), every emission of iteration k is tagged with step number
(k+1) * hour_steps, those tags are strictly ascending across iterations,
and the truncation bounds hold.  In particular lead_time 12 with hour_steps
6 gives 2 steps tagged 6 and 12 (see the witness). -/
theorem c5_rollout_step_count (P : RunParams) (t0 : Tensor Int)
    (hh : 1 ≤ P.hour_steps) :
    numSteps P = P.lead_time / P.hour_steps
  ∧ (∀ k, k < numSteps P → ∀ e ∈ batchK P t0 k,
      e.stepNumber = some ((k + 1) * P.hour_steps))
  ∧ (∀ k k', k < k' → k' < numSteps P →
      (k + 1) * P.hour_steps < (k' + 1) * P.hour_steps)
  ∧ numSteps P * P.hour_steps ≤ P.lead_time
  ∧ P.lead_time < (numSteps P + 1) * P.hour_steps := by
  refine ⟨rfl, ?_, ?_, Nat.div_mul_le_self _ _, ?_⟩
  · intro k _ e he
    exact (batchK_mem_spec P t0 k e he).2
  · intro k k' hk hk'
    exact (Nat.mul_lt_mul_right (by omega : 0 < P.hour_steps)).mpr (by omega)
  · have h1 := Nat.div_add_mod P.lead_time P.hour_steps
    have h2 : P.lead_time % P.hour_steps < P.hour_steps :=
      Nat.mod_lt _ (by omega)
    rw [Nat.mul_comm P.hour_steps] at h1
    rw [numSteps, Nat.add_mul, Nat.one_mul]
    linarith [h1, h2]

/-- Concrete run configuration used by several witnesses: lead time 12,
hour_steps 6, a 4-feature input space partitioned as prognostic [0],
constant-from-input [1], computed-constant [2], computed-forcing [3]. -/
def exampleParams : RunParams where
  L := 2
  G := 1
  prognostic_input_mask := [0]
  constants_from_input_mask := [1]
  computed_constants_mask := [2]
  computed_forcings_mask := [3]
  prognostic_output_mask := [0]
  diagnostic_output_mask := [1]
  prognostic_params := ["2t"]
  diagnostic_params := ["tp"]
  prognostic_data_from_retrieved_fields_mask := [0]
  hour_steps := 6
  lead_time := 12
  start_datetime := 100
  reference_dts := [100, 100]
  precip_template_index := 1
  forcing_and_constants := fun d _ _ => d
  predict_step := fun t f g => t 0 f g - 5

def exampleT0 : Tensor Int := fun _ _ _ => 0

theorem c5_rollout_step_count_witness :
    1 ≤ exampleParams.hour_steps
  ∧ numSteps exampleParams = 2
  ∧ (Emission.prognostic_emission [-5] 100 6).stepNumber
      = some ((0 + 1) * exampleParams.hour_steps)
  ∧ (Emission.prognostic_emission [-5] 100 12).stepNumber
      = some ((1 + 1) * exampleParams.hour_steps) :=
  ⟨by decide, by decide,
   (c5_rollout_step_count exampleParams exampleT0 (by decide)).2.1 0 (by decide)
     (Emission.prognostic_emission [-5] 100 6) (by decide),
   (c5_rollout_step_count exampleParams exampleT0 (by decide)).2.1 1 (by decide)
     (Emission.prognostic_emission [-5] 100 12) (by decide)⟩

theorem getD_map_range {α : Type} (f : Nat → α) (nd n : Nat) (hn : n < nd) (d : α) :
    ((List.range nd).map f).getD n d = f n := by
  rw [List.getD_eq_getElem _ _ (by simpa using hn)]
  simp

/-- Diagnostic output of the model at iteration j for diagnostic variable n
at grid point g: output[:, diagnostic_output_mask][:, n] of the prediction
on the tensor entering iteration j (lines 296-303). -/
def diagVal (P : RunParams) (t0 : Tensor Int) (j n g : Nat) : Int :=
  P.predict_step (stateAfterK P t0 j).1 (P.diagnostic_output_mask.getD n 0) g

theorem accum_step_eq (P : RunParams) (t0 : Tensor Int)
    (hd : P.diagnostic_output_mask.length ≠ 0) (k n : Nat) (g : Nat) :
    (stateAfterK P t0 (k + 1)).2 n g
      = (if n < P.diagnostic_params.length
          then (stateAfterK P t0 k).2 n g + max 0 (diagVal P t0 k n g)
          else (stateAfterK P t0 k).2 n g) := by
  show ((stepEmissions P k (stateAfterK P t0 k)).2).2 n g = _
  rw [stepEmissions]
  simp only [if_neg hd, accumEmitLoop_eq]
  rfl

theorem accumAfter_eq (P : RunParams) (t0 : Tensor Int)
    (hd : P.diagnostic_output_mask.length ≠ 0) (k n : Nat)
    (hn : n < P.diagnostic_params.length) (g : Nat) :
    (stateAfterK P t0 k).2 n g
      = Finset.sum (Finset.range k) (fun j => max 0 (diagVal P t0 j n g)) := by
  induction k with
  | zero => simp [stateAfterK]
  | succ k ih =>
      rw [accum_step_eq P t0 hd k n g, if_pos hn, ih, Finset.sum_range_succ]

/-- C2: the diagnostic accumulator starts at zero, each step adds the
non-negative-clipped diagnostic output of that step, and the accumulation
emission of iteration k for diagnostic variable n (located after the
prognostic emissions in the batch) carries the elementwise sum of
max(0, v_j) over iterations j = 0..k; every accumulator entry is
monotonically non-decreasing, also when a step value is negative. -/
theorem c2_accumulation_law (P : RunParams) (t0 : Tensor Int)
    (hd : P.diagnostic_output_mask.length ≠ 0) :
    ((stateAfterK P t0 0).2 = fun _ _ => (0 : Int))
  ∧ (∀ k n g, n < P.diagnostic_params.length →
      (stateAfterK P t0 (k + 1)).2 n g
        = (stateAfterK P t0 k).2 n g + max 0 (diagVal P t0 k n g))
  ∧ (∀ k, k < numSteps P → ∀ n, n < P.diagnostic_params.length →
      (batchK P t0 k).getD
          (min P.prognostic_data_from_retrieved_fields_mask.length
            P.prognostic_params.length + n)
          (Emission.initial_fields [])
        = Emission.accumulation_emission
            ((List.range P.G).map (fun g =>
              Finset.sum (Finset.range (k + 1))
                (fun j => max 0 (diagVal P t0 j n g))))
            (P.reference_dts.getD P.precip_template_index 0) 0
            ((k + 1) * P.hour_steps) (P.diagnostic_params.getD n ""))
  ∧ (∀ k n g, (stateAfterK P t0 k).2 n g ≤ (stateAfterK P t0 (k + 1)).2 n g) := by
  refine ⟨rfl, ?_, ?_, ?_⟩
  · intro k n g hn
    rw [accum_step_eq P t0 hd k n g, if_pos hn]
  · intro k _ n hn
    rw [batchK, stepEmissions]
    simp only [if_neg hd, accumEmitLoop_eq]
    rw [List.getD_append_right _ _ _ _ (by simp [Nat.le_add_right])]
    simp only [List.length_map, List.length_range, Nat.add_sub_cancel_left]
    rw [getD_map_range _ _ _ hn]
    congr 1
    apply List.map_congr_left
    intro g _
    rw [accumAfter_eq P t0 hd k n hn g, Finset.sum_range_succ]
    rfl
  · intro k n g
    rw [accum_step_eq P t0 hd k n g]
    by_cases hn : n < P.diagnostic_params.length
    · rw [if_pos hn]
      have : (0 : Int) ≤ max 0 (diagVal P t0 k n g) := le_max_left 0 _
      omega
    · rw [if_neg hn]

theorem c2_accumulation_law_witness :
    exampleParams.diagnostic_output_mask.length ≠ 0
  ∧ (stateAfterK exampleParams exampleT0 1).2 0 0
      ≤ (stateAfterK exampleParams exampleT0 2).2 0 0
  ∧ diagVal exampleParams exampleT0 0 0 0 = -5
  ∧ (stateAfterK exampleParams exampleT0 2).2 0 0 = 0 :=
  ⟨by decide,
   (c2_accumulation_law exampleParams exampleT0 (by decide)).2.2.2 1 0 0,
   by decide, by decide⟩

/-- C8: the trace of a run opens with exactly one initialization emission,
placed before every per-step emission; with a non-empty diagnostic
parameter list it carries the raw input fields, the diagnostic parameter
list, the precip template and the accumulator row shape, and with no
diagnostics it carries the raw input fields alone. -/
theorem c8_initialization_emission (P : RunParams) (t0 : Tensor Int)
    (input_dts : List Int) :
    (runTrace P t0 input_dts).countP Emission.isInitial = 1
  ∧ (runTrace P t0 input_dts).head? = some (initEmission P input_dts)
  ∧ (P.diagnostic_params = [] →
      initEmission P input_dts = Emission.initial_fields input_dts)
  ∧ (P.diagnostic_params ≠ [] →
      initEmission P input_dts
        = Emission.initial_with_diagnostics input_dts P.diagnostic_params
            (P.reference_dts.getD P.precip_template_index 0) P.G)
  ∧ (∀ e ∈ (List.range (numSteps P)).flatMap (batchK P t0),
      Emission.isInitial e = false) := by
  have hsteps : ∀ e ∈ (List.range (numSteps P)).flatMap (batchK P t0),
      Emission.isInitial e = false := by
    intro e he
    rcases List.mem_flatMap.mp he with ⟨k, _, hk⟩
    exact (batchK_mem_spec P t0 k e hk).1
  refine ⟨?_, rfl, ?_, ?_, hsteps⟩
  · rw [runTrace, List.countP_cons]
    have h0 : Emission.isInitial (initEmission P input_dts) = true := by
      rw [initEmission]
      by_cases h : P.diagnostic_params.isEmpty
      · rw [if_pos h]
        rfl
      · rw [if_neg h]
        rfl
    rw [List.countP_eq_zero.mpr ?_, h0]
    · rfl
    · intro e he
      simp [hsteps e he]
  · intro h
    rw [initEmission, if_pos (by simp [h])]
  · intro h
    rw [initEmission, if_neg (by simpa using h)]

theorem c8_initialization_emission_witness :
    (runTrace exampleParams exampleT0 [100, 100]).countP Emission.isInitial = 1
  ∧ initEmission exampleParams [100, 100]
      = Emission.initial_with_diagnostics [100, 100] ["tp"] 100 1 :=
  ⟨(c8_initialization_emission exampleParams exampleT0 [100, 100]).1,
   (c8_initialization_emission exampleParams exampleT0 [100, 100]).2.2.2.1
     (by decide)⟩

/-- Kind codes written into the kinds array (line 75): '?' for unknown and
the single-character codes 'C', 'K', 'F', 'P' of lines 83, 89, 96, 102. -/
inductive Kind where
  | unknown : Kind
  | C : Kind
  | K : Kind
  | F : Kind
  | P : Kind
deriving DecidableEq

/-- The three classification arrays of lines 73-77 (check, kinds, inputs),
as total boolean/kind functions over feature indices. -/
structure ClassSt where
  check : Nat → Bool
  kinds : Nat → Kind
  inputs : Nat → Bool

/-- Initial classification state (lines 73-77): check False, kinds '?',
inputs False everywhere. -/
def classifyInit : ClassSt :=
  ⟨fun _ => false, fun _ => Kind.unknown, fun _ => false⟩

/-- Translation of one mask block (e.g. lines 80-83): assert not
np.any(check[mask]) — the none case is the failed assertion — then
check[mask] = True, kinds[mask] = code, and inputs[mask] = True for the two
kinds sourced from retrieved fields. -/
def markMask (s : ClassSt) (mask : List Nat) (k : Kind) (isInp : Bool) :
    Option ClassSt :=
  if mask.any s.check then none
  else some
    { check := fun i => s.check i || decide (i ∈ mask)
      kinds := fun i => if i ∈ mask then k else s.kinds i
      inputs := fun i => s.inputs i || (isInp && decide (i ∈ mask)) }

inductive ClassifyError where
  | overlap : ClassifyError
  | missingFields : List (Nat × String) → ClassifyError
deriving DecidableEq

/-- Translation of the feature classification (lines 73-115): the four
masks are marked in source order (computed constants 'C', constants from
input 'K', computed forcings 'F', prognostic inputs 'P'); a mask meeting an
already-checked index fires the assertion; afterwards, if any index below
num_input_features is unchecked, every uncovered index is reported together
with its display name index_to_variable[model_to_data[i]] and only then is
RuntimeError('Missing fields') raised. -/
def classify (num_input_features : Nat)
    (computed_constants_mask constants_from_input_mask
     computed_forcings_mask prognostic_input_mask : List Nat)
    (model_to_data : Nat → Nat) (index_to_variable : Nat → String) :
    Except ClassifyError ClassSt :=
  match markMask classifyInit computed_constants_mask Kind.C false with
  | none => Except.error ClassifyError.overlap
  | some s1 =>
    match markMask s1 constants_from_input_mask Kind.K true with
    | none => Except.error ClassifyError.overlap
    | some s2 =>
      match markMask s2 computed_forcings_mask Kind.F false with
      | none => Except.error ClassifyError.overlap
      | some s3 =>
        match markMask s3 prognostic_input_mask Kind.P true with
        | none => Except.error ClassifyError.overlap
        | some s4 =>
          if ((List.range num_input_features).filter
              (fun i => ! s4.check i)).isEmpty
          then Except.ok s4
          else Except.error (ClassifyError.missingFields
            (((List.range num_input_features).filter
                (fun i => ! s4.check i)).map
              (fun i => (i, index_to_variable (model_to_data i)))))

def exceptIsOk {ε α : Type} : Except ε α → Bool
  | Except.ok _ => true
  | Except.error _ => false

theorem markMask_none_iff (s : ClassSt) (mask : List Nat) (k : Kind)
    (b : Bool) :
    markMask s mask k b = none ↔ ∃ f ∈ mask, s.check f = true := by
  rw [markMask]
  split_ifs with h
  · rw [List.any_eq_true] at h
    exact iff_of_true rfl h
  · rw [Bool.not_eq_true, List.any_eq_false] at h
    refine iff_of_false (by simp) ?_
    rintro ⟨f, hf, hc⟩
    exact absurd hc (by simpa using h f hf)

theorem markMask_some_spec {s : ClassSt} {mask : List Nat} {k : Kind}
    {b : Bool} {s' : ClassSt} (h : markMask s mask k b = some s') :
    mask.any s.check = false
  ∧ (∀ i, s'.check i = (s.check i || decide (i ∈ mask)))
  ∧ (∀ i, s'.kinds i = if i ∈ mask then k else s.kinds i)
  ∧ (∀ i, s'.inputs i = (s.inputs i || (b && decide (i ∈ mask)))) := by
  rw [markMask] at h
  split_ifs at h with hc
  cases h
  exact ⟨by simpa using hc, fun i => rfl, fun i => rfl, fun i => rfl⟩

theorem bool_of_not_not {b : Bool} (h : ¬ (!b) = true) : b = true := by
  cases b
  · exact absurd rfl h
  · rfl

/-- Pairwise disjointness of the four kind masks. -/
def masksDisjoint (cc kk ff pp : List Nat) : Prop :=
  (∀ a ∈ cc, a ∉ kk) ∧ (∀ a ∈ cc, a ∉ ff) ∧ (∀ a ∈ cc, a ∉ pp)
    ∧ (∀ a ∈ kk, a ∉ ff) ∧ (∀ a ∈ kk, a ∉ pp) ∧ (∀ a ∈ ff, a ∉ pp)

/-- Coverage of the whole feature index space by the four kind masks. -/
def masksCover (N : Nat) (cc kk ff pp : List Nat) : Prop :=
  ∀ i, i < N → (i ∈ cc ∨ i ∈ kk ∨ i ∈ ff ∨ i ∈ pp)

instance (cc kk ff pp : List Nat) : Decidable (masksDisjoint cc kk ff pp) := by
  unfold masksDisjoint
  infer_instance

instance (N : Nat) (cc kk ff pp : List Nat) :
    Decidable (masksCover N cc kk ff pp) := by
  unfold masksCover
  infer_instance

theorem classify_d6_of_isOk (N : Nat) (cc kk ff pp : List Nat)
    (m2d : Nat → Nat) (i2v : Nat → String) :
    exceptIsOk (classify N cc kk ff pp m2d i2v) = true →
      masksDisjoint cc kk ff pp := by
  unfold classify
  cases e1 : markMask classifyInit cc Kind.C false with
  | none => intro h; simp [exceptIsOk] at h
  | some s1 =>
  obtain ⟨_, hchk1, _, _⟩ := markMask_some_spec e1
  cases e2 : markMask s1 kk Kind.K true with
  | none => intro h; simp [e2, exceptIsOk] at h
  | some s2 =>
  obtain ⟨hc2, hchk2, _, _⟩ := markMask_some_spec e2
  cases e3 : markMask s2 ff Kind.F false with
  | none => intro h; simp [e2, e3, exceptIsOk] at h
  | some s3 =>
  obtain ⟨hc3, hchk3, _, _⟩ := markMask_some_spec e3
  cases e4 : markMask s3 pp Kind.P true with
  | none => intro h; simp [e2, e3, e4, exceptIsOk] at h
  | some s4 =>
  obtain ⟨hc4, _, _, _⟩ := markMask_some_spec e4
  intro _
  have d1 : ∀ a ∈ cc, a ∉ kk := by
    intro a ha hb
    have h2 := List.any_eq_false.mp hc2 a hb
    rw [hchk1 a] at h2
    simp [classifyInit, ha] at h2
  have d2 : ∀ a ∈ cc, a ∉ ff := by
    intro a ha hb
    have h3 := List.any_eq_false.mp hc3 a hb
    rw [hchk2 a, hchk1 a] at h3
    simp [classifyInit, ha] at h3
  have d4 : ∀ a ∈ kk, a ∉ ff := by
    intro a ha hb
    have h3 := List.any_eq_false.mp hc3 a hb
    rw [hchk2 a, hchk1 a] at h3
    simp [classifyInit, ha] at h3
  have d3 : ∀ a ∈ cc, a ∉ pp := by
    intro a ha hb
    have h4 := List.any_eq_false.mp hc4 a hb
    rw [hchk3 a, hchk2 a, hchk1 a] at h4
    simp [classifyInit, ha] at h4
  have d5 : ∀ a ∈ kk, a ∉ pp := by
    intro a ha hb
    have h4 := List.any_eq_false.mp hc4 a hb
    rw [hchk3 a, hchk2 a, hchk1 a] at h4
    simp [classifyInit, ha] at h4
  have d6 : ∀ a ∈ ff, a ∉ pp := by
    intro a ha hb
    have h4 := List.any_eq_false.mp hc4 a hb
    rw [hchk3 a, hchk2 a, hchk1 a] at h4
    simp [classifyInit, ha] at h4
  exact ⟨d1, d2, d3, d4, d5, d6⟩

theorem classify_spec (N : Nat) (cc kk ff pp : List Nat)
    (m2d : Nat → Nat) (i2v : Nat → String)
    (hd : masksDisjoint cc kk ff pp) :
    ∃ s4 : ClassSt,
      (∀ i, s4.check i = (((decide (i ∈ cc) || decide (i ∈ kk))
          || decide (i ∈ ff)) || decide (i ∈ pp)))
    ∧ (∀ i, s4.kinds i = if i ∈ pp then Kind.P else if i ∈ ff then Kind.F
          else if i ∈ kk then Kind.K else if i ∈ cc then Kind.C
          else Kind.unknown)
    ∧ (∀ i, s4.inputs i = (decide (i ∈ kk) || decide (i ∈ pp)))
    ∧ classify N cc kk ff pp m2d i2v
        = (if ((List.range N).filter (fun i => ! s4.check i)).isEmpty
           then Except.ok s4
           else Except.error (ClassifyError.missingFields
              (((List.range N).filter (fun i => ! s4.check i)).map
                (fun i => (i, i2v (m2d i)))))) := by
  obtain ⟨d1, d2, d3, d4, d5, d6⟩ := hd
  obtain ⟨s1, e1⟩ : ∃ s1, markMask classifyInit cc Kind.C false = some s1 := by
    cases h : markMask classifyInit cc Kind.C false with
    | none =>
        rcases (markMask_none_iff _ _ _ _).mp h with ⟨f, _, hf⟩
        exact absurd hf (by simp [classifyInit])
    | some s1 => exact ⟨s1, rfl⟩
  obtain ⟨_, hchk1, hknd1, hinp1⟩ := markMask_some_spec e1
  obtain ⟨s2, e2⟩ : ∃ s2, markMask s1 kk Kind.K true = some s2 := by
    cases h : markMask s1 kk Kind.K true with
    | none =>
        rcases (markMask_none_iff _ _ _ _).mp h with ⟨f, hfm, hf⟩
        rw [hchk1 f] at hf
        simp only [classifyInit, Bool.false_or, decide_eq_true_eq] at hf
        exact absurd hfm (d1 f hf)
    | some s2 => exact ⟨s2, rfl⟩
  obtain ⟨_, hchk2, hknd2, hinp2⟩ := markMask_some_spec e2
  obtain ⟨s3, e3⟩ : ∃ s3, markMask s2 ff Kind.F false = some s3 := by
    cases h : markMask s2 ff Kind.F false with
    | none =>
        rcases (markMask_none_iff _ _ _ _).mp h with ⟨f, hfm, hf⟩
        rw [hchk2 f, hchk1 f] at hf
        simp only [classifyInit, Bool.false_or, Bool.or_eq_true,
          decide_eq_true_eq] at hf
        rcases hf with hf | hf
        · exact absurd hfm (d2 f hf)
        · exact absurd hfm (d4 f hf)
    | some s3 => exact ⟨s3, rfl⟩
  obtain ⟨_, hchk3, hknd3, hinp3⟩ := markMask_some_spec e3
  obtain ⟨s4, e4⟩ : ∃ s4, markMask s3 pp Kind.P true = some s4 := by
    cases h : markMask s3 pp Kind.P true with
    | none =>
        rcases (markMask_none_iff _ _ _ _).mp h with ⟨f, hfm, hf⟩
        rw [hchk3 f, hchk2 f, hchk1 f] at hf
        simp only [classifyInit, Bool.false_or, Bool.or_eq_true,
          decide_eq_true_eq] at hf
        rcases hf with (hf | hf) | hf
        · exact absurd hfm (d3 f hf)
        · exact absurd hfm (d5 f hf)
        · exact absurd hfm (d6 f hf)
    | some s4 => exact ⟨s4, rfl⟩
  obtain ⟨_, hchk4, hknd4, hinp4⟩ := markMask_some_spec e4
  have hcheck : ∀ i, s4.check i = (((decide (i ∈ cc) || decide (i ∈ kk))
      || decide (i ∈ ff)) || decide (i ∈ pp)) := by
    intro i
    rw [hchk4 i, hchk3 i, hchk2 i, hchk1 i]
    simp only [classifyInit, Bool.false_or]
  refine ⟨s4, hcheck, ?_, ?_, ?_⟩
  · intro i
    rw [hknd4 i, hknd3 i, hknd2 i, hknd1 i]
    rfl
  · intro i
    rw [hinp4 i, hinp3 i, hinp2 i, hinp1 i]
    simp [classifyInit]
  · simp only [classify, e1, e2, e3, e4]

/-- C3: classification succeeds exactly when the four kind masks cover
every feature index below num_input_features with pairwise-disjoint
coverage; any overlap or gap is fatal, and in the gap case the raised error
carries every uncovered index paired with its display name, not just the
first one. -/
theorem c3_partition_property (N : Nat) (cc kk ff pp : List Nat)
    (m2d : Nat → Nat) (i2v : Nat → String) :
    (exceptIsOk (classify N cc kk ff pp m2d i2v) = true
      ↔ masksDisjoint cc kk ff pp ∧ masksCover N cc kk ff pp)
  ∧ (masksDisjoint cc kk ff pp → ¬ masksCover N cc kk ff pp →
      classify N cc kk ff pp m2d i2v
        = Except.error (ClassifyError.missingFields
            (((List.range N).filter (fun i =>
                ! (((decide (i ∈ cc) || decide (i ∈ kk))
                    || decide (i ∈ ff)) || decide (i ∈ pp)))).map
              (fun i => (i, i2v (m2d i)))))) := by
  constructor
  · constructor
    · intro h
      have hd := classify_d6_of_isOk N cc kk ff pp m2d i2v h
      refine ⟨hd, ?_⟩
      obtain ⟨s4, hcheck, _, _, hcl⟩ := classify_spec N cc kk ff pp m2d i2v hd
      rw [hcl] at h
      by_cases hemp : ((List.range N).filter (fun i => ! s4.check i)).isEmpty
      · intro i hi
        have hthis := List.filter_eq_nil_iff.mp (List.isEmpty_iff.mp hemp) i
          (List.mem_range.mpr hi)
        rw [hcheck i] at hthis
        have hb := bool_of_not_not hthis
        simp only [Bool.or_eq_true, decide_eq_true_eq] at hb
        tauto
      · rw [if_neg hemp] at h
        simp [exceptIsOk] at h
    · rintro ⟨hd, hcov⟩
      obtain ⟨s4, hcheck, _, _, hcl⟩ := classify_spec N cc kk ff pp m2d i2v hd
      rw [hcl]
      have hemp : ((List.range N).filter (fun i => ! s4.check i)).isEmpty = true := by
        rw [List.isEmpty_iff, List.filter_eq_nil_iff]
        intro i hi
        have hthis := hcov i (List.mem_range.mp hi)
        have hb : (((decide (i ∈ cc) || decide (i ∈ kk))
            || decide (i ∈ ff)) || decide (i ∈ pp)) = true := by
          simp only [Bool.or_eq_true, decide_eq_true_eq]
          tauto
        rw [hcheck i, hb]
        simp
      rw [if_pos hemp]
      rfl
  · intro hd hncov
    obtain ⟨s4, hcheck, _, _, hcl⟩ := classify_spec N cc kk ff pp m2d i2v hd
    rw [hcl]
    have hemp : ¬ ((List.range N).filter (fun i => ! s4.check i)).isEmpty = true := by
      intro hemp
      apply hncov
      intro i hi
      have hthis := List.filter_eq_nil_iff.mp (List.isEmpty_iff.mp hemp) i
        (List.mem_range.mpr hi)
      rw [hcheck i] at hthis
      have hb := bool_of_not_not hthis
      simp only [Bool.or_eq_true, decide_eq_true_eq] at hb
      tauto
    rw [if_neg hemp]
    have hfe : (List.range N).filter (fun i => ! s4.check i)
        = (List.range N).filter (fun i =>
            ! (((decide (i ∈ cc) || decide (i ∈ kk))
                || decide (i ∈ ff)) || decide (i ∈ pp))) := by
      apply List.filter_congr
      intro i _
      rw [hcheck i]
    rw [hfe]

theorem c3_partition_property_witness :
    masksDisjoint [0] [] [] []
  ∧ ¬ masksCover 3 [0] [] [] []
  ∧ classify 3 [0] [] [] [] (fun i => i) (fun _ => "x")
      = Except.error (ClassifyError.missingFields [(1, "x"), (2, "x")]) := by
  have hd : masksDisjoint [0] [] [] [] := by
    refine ⟨?_, ?_, ?_, ?_, ?_, ?_⟩ <;> intro a ha hb <;> simp_all
  have hnc : ¬ masksCover 3 [0] [] [] [] := by
    intro h
    rcases h 1 (by omega) with h1 | h1 | h1 | h1 <;> simp_all
  refine ⟨hd, hnc, ?_⟩
  have h := (c3_partition_property 3 [0] [] [] [] (fun i => i) (fun _ => "x")).2 hd hnc
  rw [h]
  rfl

/-- Translation of the per-feature NaN test (line 191):
np.isnan(input_tensor_numpy[:, i, :]).any() over all lags and grid points. -/
def hasNaNFeature (t : Tensor FVal) (L G i : Nat) : Bool :=
  (List.range L).any (fun l => (List.range G).any (fun g => (t l i g).isNaN))

/-- Python set.add on the can_be_missing set of names (line 194), modelled
as duplicate-free insertion. -/
def insertName (acc : List String) (name : String) : List String :=
  if name ∈ acc then acc else acc ++ [name]

/-- Translation of the NaN validation loop body (lines 189-203) over the
remaining feature indices, threading can_be_missing: a feature with NaNs is
recorded by name, and if its name is not among the imputable variables the
loop raises ValueError naming it. -/
def validateFrom (t : Tensor FVal) (L G : Nat) (model_to_data : Nat → Nat)
    (index_to_variable : Nat → String) (imputable_variables : List String) :
    List Nat → List String → Except String (List String)
  | [], acc => Except.ok acc
  | i :: rest, acc =>
      let name := index_to_variable (model_to_data i)
      if hasNaNFeature t L G i then
        if name ∈ imputable_variables then
          validateFrom t L G model_to_data index_to_variable
            imputable_variables rest (insertName acc name)
        else Except.error name
      else
        validateFrom t L G model_to_data index_to_variable
          imputable_variables rest acc

/-- The whole missing-data validation (lines 186-203): scan feature indices
0 .. num_input_features-1 starting from an empty can_be_missing set. -/
def validateMissing (num_input_features : Nat) (t : Tensor FVal) (L G : Nat)
    (model_to_data : Nat → Nat) (index_to_variable : Nat → String)
    (imputable_variables : List String) : Except String (List String) :=
  validateFrom t L G model_to_data index_to_variable imputable_variables
    (List.range num_input_features) []

theorem mem_insertName (acc : List String) (n s : String) :
    s ∈ insertName acc n ↔ s ∈ acc ∨ s = n := by
  rw [insertName]
  split_ifs with h
  · constructor
    · exact Or.inl
    · rintro (hs | rfl)
      · exact hs
      · exact h
  · simp [List.mem_append]

theorem validateFrom_spec (t : Tensor FVal) (L G : Nat) (m2d : Nat → Nat)
    (i2v : Nat → String) (imp : List String) : ∀ (is : List Nat) (acc : List String),
    (∀ e, validateFrom t L G m2d i2v imp is acc = Except.error e →
        ∃ i ∈ is, hasNaNFeature t L G i = true ∧ i2v (m2d i) ∉ imp
          ∧ e = i2v (m2d i))
  ∧ (∀ out, validateFrom t L G m2d i2v imp is acc = Except.ok out →
        (∀ i ∈ is, hasNaNFeature t L G i = true → i2v (m2d i) ∈ imp)
      ∧ (∀ s, s ∈ out ↔ s ∈ acc
          ∨ ∃ i ∈ is, hasNaNFeature t L G i = true ∧ i2v (m2d i) = s))
  | [], acc => by
      constructor
      · intro e he
        simp [validateFrom] at he
      · intro out hout
        rw [validateFrom] at hout
        cases hout
        exact ⟨by simp, fun s => by simp⟩
  | i :: rest, acc => by
      have ih := validateFrom_spec t L G m2d i2v imp rest
      constructor
      · intro e he
        rw [validateFrom] at he
        split_ifs at he with h1 h2
        · rcases (ih (insertName acc (i2v (m2d i)))).1 e he with
            ⟨j, hj, hnan, himp, rfl⟩
          exact ⟨j, List.mem_cons_of_mem _ hj, hnan, himp, rfl⟩
        · cases he
          exact ⟨i, List.mem_cons_self _ _, h1, h2, rfl⟩
        · rcases (ih acc).1 e he with ⟨j, hj, hnan, himp, rfl⟩
          exact ⟨j, List.mem_cons_of_mem _ hj, hnan, himp, rfl⟩
      · intro out hout
        rw [validateFrom] at hout
        split_ifs at hout with h1 h2
        · obtain ⟨hall, hmem⟩ := (ih (insertName acc (i2v (m2d i)))).2 out hout
          constructor
          · intro j hj hnan
            rcases List.mem_cons.mp hj with rfl | hj'
            · exact h2
            · exact hall j hj' hnan
          · intro s
            rw [hmem s, mem_insertName]
            constructor
            · rintro ((hs | rfl) | ⟨j, hj, hnan, hv⟩)
              · exact Or.inl hs
              · exact Or.inr ⟨i, List.mem_cons_self _ _, h1, rfl⟩
              · exact Or.inr ⟨j, List.mem_cons_of_mem _ hj, hnan, hv⟩
            · rintro (hs | ⟨j, hj, hnan, hv⟩)
              · exact Or.inl (Or.inl hs)
              · rcases List.mem_cons.mp hj with rfl | hj'
                · exact Or.inl (Or.inr hv.symm)
                · exact Or.inr ⟨j, hj', hnan, hv⟩
        · obtain ⟨hall, hmem⟩ := (ih acc).2 out hout
          constructor
          · intro j hj hnan
            rcases List.mem_cons.mp hj with rfl | hj'
            · exact absurd hnan (by simp [h1])
            · exact hall j hj' hnan
          · intro s
            rw [hmem s]
            constructor
            · rintro (hs | ⟨j, hj, hnan, hv⟩)
              · exact Or.inl hs
              · exact Or.inr ⟨j, List.mem_cons_of_mem _ hj, hnan, hv⟩
            · rintro (hs | ⟨j, hj, hnan, hv⟩)
              · exact Or.inl hs
              · rcases List.mem_cons.mp hj with rfl | hj'
                · exact absurd hnan (by simp [h1])
                · exact Or.inr ⟨j, hj', hnan, hv⟩

/-- C4: validation of the assembled tensor raises an error naming a feature
exactly when some feature index holds a NaN (at any lag or grid point)
whose external name is not among the imputable variables; when every
NaN-carrying feature is imputable, validation passes and the can_be_missing
set holds exactly the names of the NaN-carrying features.  The validator
only reads the tensor (it is a pure function of it), so no value is
altered. -/
theorem c4_imputability_rule (N : Nat) (t : Tensor FVal) (L G : Nat)
    (m2d : Nat → Nat) (i2v : Nat → String) (imp : List String) :
    (∀ e, validateMissing N t L G m2d i2v imp = Except.error e →
        ∃ i, i < N ∧ hasNaNFeature t L G i = true ∧ i2v (m2d i) ∉ imp
          ∧ e = i2v (m2d i))
  ∧ (∀ out, validateMissing N t L G m2d i2v imp = Except.ok out →
        (∀ i, i < N → hasNaNFeature t L G i = true → i2v (m2d i) ∈ imp)
      ∧ (∀ s, s ∈ out ↔ ∃ i, i < N ∧ hasNaNFeature t L G i = true
          ∧ i2v (m2d i) = s))
  ∧ ((∃ e, validateMissing N t L G m2d i2v imp = Except.error e)
      ↔ ∃ i, i < N ∧ hasNaNFeature t L G i = true ∧ i2v (m2d i) ∉ imp) := by
  have hspec := validateFrom_spec t L G m2d i2v imp (List.range N) []
  have herr : ∀ e, validateMissing N t L G m2d i2v imp = Except.error e →
      ∃ i, i < N ∧ hasNaNFeature t L G i = true ∧ i2v (m2d i) ∉ imp
        ∧ e = i2v (m2d i) := by
    intro e he
    rcases hspec.1 e he with ⟨i, hi, hnan, himp, rfl⟩
    exact ⟨i, List.mem_range.mp hi, hnan, himp, rfl⟩
  have hok : ∀ out, validateMissing N t L G m2d i2v imp = Except.ok out →
      (∀ i, i < N → hasNaNFeature t L G i = true → i2v (m2d i) ∈ imp)
    ∧ (∀ s, s ∈ out ↔ ∃ i, i < N ∧ hasNaNFeature t L G i = true
        ∧ i2v (m2d i) = s) := by
    intro out hout
    obtain ⟨hall, hmem⟩ := hspec.2 out hout
    refine ⟨fun i hi => hall i (List.mem_range.mpr hi), fun s => ?_⟩
    rw [hmem s]
    constructor
    · rintro (hs | ⟨i, hi, hnan, hv⟩)
      · simp at hs
      · exact ⟨i, List.mem_range.mp hi, hnan, hv⟩
    · rintro ⟨i, hi, hnan, hv⟩
      exact Or.inr ⟨i, List.mem_range.mpr hi, hnan, hv⟩
  refine ⟨herr, hok, ?_, ?_⟩
  · rintro ⟨e, he⟩
    rcases herr e he with ⟨i, hi, hnan, himp, _⟩
    exact ⟨i, hi, hnan, himp⟩
  · rintro ⟨i, hi, hnan, himp⟩
    cases hv : validateMissing N t L G m2d i2v imp with
    | error e => exact ⟨e, rfl⟩
    | ok out => exact absurd ((hok out hv).1 i hi hnan) himp

/-- Concrete assembled tensor used by the validator witness: feature 0
holds a NaN, feature 1 a number. -/
def exTensor : Tensor FVal := fun _ f _ => if f = 0 then FVal.nan else FVal.num 1

def exNames : Nat → String := fun i => if i = 0 then "q" else "r"

theorem c4_imputability_rule_witness :
    validateMissing 2 exTensor 1 1 (fun i => i) exNames ["q"]
      = Except.ok ["q"]
  ∧ ("q" ∈ (["q"] : List String) ↔ ∃ i, i < 2
      ∧ hasNaNFeature exTensor 1 1 i = true ∧ exNames i = "q") :=
  ⟨rfl,
   ((c4_imputability_rule 2 exTensor 1 1 (fun i => i) exNames ["q"]).2.1
      ["q"] rfl).2 "q"⟩

/-- Translation of get_most_recent_datetime (lines 244-249): latest =
datetimes[-1]; assert d <= latest for every d (the error case); an empty
field list would already fail the datetimes[-1] indexing. -/
def get_most_recent_datetime (datetimes : List Int) : Except String Int :=
  match datetimes.getLast? with
  | none => Except.error "index out of range"
  | some latest =>
      if datetimes.all (fun d => decide (d ≤ latest)) then Except.ok latest
      else Except.error "temporal ordering"

/-- Translation of reference_fields (line 252): the input fields whose
valid-datetime equals the most recent datetime, kept in order. -/
def reference_fields_dts (input_dts : List Int) (most_recent : Int) : List Int :=
  input_dts.filter (fun d => decide (d = most_recent))

/-- Translation of the per-step template assertions (lines 307-310 and
322-325): every prognostic emission checks its template's valid-datetime
against most_recent, and each accumulation emission (executed only when the
diagnostic output mask and parameter list are non-empty) checks the fixed
precip template.  The value false means some assertion fired. -/
def stepTemplatesOk (reference_dts : List Int)
    (prognostic_data_from_retrieved_fields_mask : List Nat)
    (precip_template_index : Nat) (most_recent : Int)
    (n_diag_mask n_diag_params : Nat) : Bool :=
  prognostic_data_from_retrieved_fields_mask.all
      (fun m => decide (reference_dts.getD m 0 = most_recent))
    && (decide (n_diag_mask = 0) || decide (n_diag_params = 0)
        || decide (reference_dts.getD precip_template_index 0 = most_recent))

/-- C7: the run fails in get_most_recent_datetime exactly when some
retrieved field's valid-datetime is later than the last field's; and the
per-step template assertions fail exactly when a prognostic template's
valid-datetime, or (when accumulation emissions happen) the fixed precip
template's valid-datetime, differs from the run's most-recent datetime.
Templates drawn from the reference-field list always pass, since that list
is filtered to the most-recent datetime. -/
theorem c7_temporal_ordering (dts : List Int) (hne : dts ≠ [])
    (reference_dts : List Int) (pretr : List Nat) (precip : Nat)
    (most_recent : Int) (nd np : Nat) :
    (exceptIsOk (get_most_recent_datetime dts) = true
      ↔ ∀ d ∈ dts, d ≤ dts.getLast hne)
  ∧ (get_most_recent_datetime dts = Except.ok (dts.getLast hne)
      ∨ ∃ d ∈ dts, dts.getLast hne < d)
  ∧ (stepTemplatesOk reference_dts pretr precip most_recent nd np = false
      ↔ (∃ m ∈ pretr, reference_dts.getD m 0 ≠ most_recent)
        ∨ (nd ≠ 0 ∧ np ≠ 0
            ∧ reference_dts.getD precip 0 ≠ most_recent))
  ∧ (∀ m : Nat, m < (reference_fields_dts dts most_recent).length →
      (reference_fields_dts dts most_recent).getD m 0 = most_recent) := by
  have hlast : dts.getLast? = some (dts.getLast hne) :=
    List.getLast?_eq_getLast dts hne
  refine ⟨?_, ?_, ?_, ?_⟩
  · simp only [get_most_recent_datetime, hlast]
    by_cases hall : dts.all (fun d => decide (d ≤ dts.getLast hne))
    · rw [if_pos hall]
      refine iff_of_true rfl ?_
      intro d hd
      simpa using List.all_eq_true.mp hall d hd
    · rw [if_neg hall]
      refine iff_of_false (by simp [exceptIsOk]) ?_
      intro hcon
      exact hall (List.all_eq_true.mpr (fun d hd => by simpa using hcon d hd))
  · simp only [get_most_recent_datetime, hlast]
    by_cases hall : dts.all (fun d => decide (d ≤ dts.getLast hne))
    · rw [if_pos hall]
      exact Or.inl rfl
    · rw [if_neg hall]
      right
      rw [List.all_eq_true] at hall
      push_neg at hall
      rcases hall with ⟨d, hd, hdle⟩
      exact ⟨d, hd, by simpa using hdle⟩
  · rw [stepTemplatesOk]
    constructor
    · intro h
      rcases Bool.and_eq_false_iff.mp h with h1 | h1
      · left
        rw [List.all_eq_false] at h1
        rcases h1 with ⟨m, hm, hv⟩
        exact ⟨m, hm, by simpa using hv⟩
      · right
        rcases Bool.or_eq_false_iff.mp h1 with ⟨h2, h3⟩
        rcases Bool.or_eq_false_iff.mp h2 with ⟨h4, h5⟩
        exact ⟨by simpa using h4, by simpa using h5, by simpa using h3⟩
    · intro h
      rcases h with ⟨m, hm, hv⟩ | ⟨h1, h2, h3⟩
      · apply Bool.and_eq_false_iff.mpr
        left
        rw [List.all_eq_false]
        exact ⟨m, hm, by simpa using hv⟩
      · apply Bool.and_eq_false_iff.mpr
        right
        apply Bool.or_eq_false_iff.mpr
        refine ⟨Bool.or_eq_false_iff.mpr ⟨by simpa using h1, by simpa using h2⟩,
          by simpa using h3⟩
  · intro m hm
    rw [reference_fields_dts] at hm ⊢
    rw [List.getD_eq_getElem _ _ hm]
    have hmem : (dts.filter (fun d => decide (d = most_recent)))[m]
        ∈ dts.filter (fun d => decide (d = most_recent)) :=
      List.getElem_mem hm
    have hp := (List.mem_filter.mp hmem).2
    simpa using hp

theorem c7_temporal_ordering_witness :
    (([90, 100] : List Int) ≠ [])
  ∧ exceptIsOk (get_most_recent_datetime [90, 100]) = true
  ∧ stepTemplatesOk [100, 50] [1] 0 100 1 1 = false :=
  ⟨by decide,
   ((c7_temporal_ordering [90, 100] (by decide) [100, 50] [1] 0 100 1 1).1).mpr
     (by decide),
   ((c7_temporal_ordering [90, 100] (by decide) [100, 50] [1] 0 100 1 1).2.2.1).mpr
     (Or.inl ⟨1, by decide, by decide⟩)⟩

/-- Pointwise update of one feature at every lag slot. -/
def writeFeat {α : Type} (t : Tensor α) (f0 : Nat) (v : Nat → Nat → α) : Tensor α :=
  fun l f g => if f = f0 then v l g else t l f g

/-- numpy fancy-index assignment t[:, mask] = values: sequential pointwise
writes, position mask[j] receiving row j of the values at every lag (later
writes win, as in numpy). -/
def writeMaskFrom {α : Type} (v : Nat → Nat → Nat → α) :
    Nat → List Nat → Tensor α → Tensor α
  | _, [], t => t
  | j, f :: rest, t =>
      writeMaskFrom v (j + 1) rest (writeFeat t f (fun l g => v l j g))

def writeMask {α : Type} (t : Tensor α) (mask : List Nat)
    (v : Nat → Nat → Nat → α) : Tensor α :=
  writeMaskFrom v 0 mask t

theorem writeMaskFrom_notin {α : Type} (v : Nat → Nat → Nat → α) :
    ∀ (mask : List Nat) (j : Nat) (t : Tensor α) (l f g : Nat), f ∉ mask →
      writeMaskFrom v j mask t l f g = t l f g
  | [], _, _, _, _, _, _ => rfl
  | m :: rest, j, t, l, f, g, hf => by
      rw [writeMaskFrom, writeMaskFrom_notin v rest (j + 1) _ l f g
        (fun hh => hf (List.mem_cons_of_mem _ hh))]
      rw [writeFeat, if_neg (fun hh => hf (by rw [hh]; exact List.mem_cons_self _ _))]

theorem writeMaskFrom_get {α : Type} (v : Nat → Nat → Nat → α) :
    ∀ (mask : List Nat), mask.Nodup →
      ∀ (j : Nat) (t : Tensor α) (idx : Nat) (h : idx < mask.length) (l g : Nat),
        writeMaskFrom v j mask t l (mask.get ⟨idx, h⟩) g = v l (j + idx) g
  | [], _, _, _, idx, h, _, _ => absurd h (by simp)
  | m :: rest, hnd, j, t, 0, h, l, g => by
      show writeMaskFrom v j (m :: rest) t l m g = v l (j + 0) g
      rw [writeMaskFrom]
      have hm : m ∉ rest := (List.nodup_cons.mp hnd).1
      rw [writeMaskFrom_notin v rest (j + 1) _ l m g hm]
      rw [writeFeat, if_pos rfl, Nat.add_zero]
  | m :: rest, hnd, j, t, idx + 1, h, l, g => by
      rw [writeMaskFrom]
      have harr : j + 1 + idx = j + (idx + 1) := by omega
      rw [← harr]
      exact writeMaskFrom_get v rest (List.nodup_cons.mp hnd).2 (j + 1) _ idx
        (by simpa using Nat.lt_of_succ_lt_succ h) l g

theorem writeMask_notin {α : Type} (t : Tensor α) (mask : List Nat)
    (v : Nat → Nat → Nat → α) (l f g : Nat) (hf : f ∉ mask) :
    writeMask t mask v l f g = t l f g :=
  writeMaskFrom_notin v mask 0 t l f g hf

theorem writeMask_get {α : Type} (t : Tensor α) (mask : List Nat)
    (hnd : mask.Nodup) (v : Nat → Nat → Nat → α) (idx : Nat)
    (h : idx < mask.length) (l g : Nat) :
    writeMask t mask v l (mask.get ⟨idx, h⟩) g = v l idx g := by
  rw [writeMask, writeMaskFrom_get v mask hnd 0 t idx h l g, Nat.zero_add]

theorem writeSlotMaskFrom_ne_slot {α : Type} (l0 : Nat) (v : Nat → Nat → α) :
    ∀ (mask : List Nat) (j : Nat) (t : Tensor α) (l f g : Nat), l ≠ l0 →
      writeSlotMaskFrom l0 v j mask t l f g = t l f g
  | [], _, _, _, _, _, _ => rfl
  | m :: rest, j, t, l, f, g, hl => by
      rw [writeSlotMaskFrom, writeSlotMaskFrom_ne_slot l0 v rest (j + 1) _ l f g hl]
      rw [writeSlotFeat, if_neg (fun hh => hl hh.1)]

theorem writeSlotMaskFrom_notin {α : Type} (l0 : Nat) (v : Nat → Nat → α) :
    ∀ (mask : List Nat) (j : Nat) (t : Tensor α) (l f g : Nat), f ∉ mask →
      writeSlotMaskFrom l0 v j mask t l f g = t l f g
  | [], _, _, _, _, _, _ => rfl
  | m :: rest, j, t, l, f, g, hf => by
      rw [writeSlotMaskFrom, writeSlotMaskFrom_notin l0 v rest (j + 1) _ l f g
        (fun hh => hf (List.mem_cons_of_mem _ hh))]
      rw [writeSlotFeat,
        if_neg (fun hh => hf (by rw [hh.2]; exact List.mem_cons_self _ _))]

theorem writeSlotMaskFrom_get {α : Type} (l0 : Nat) (v : Nat → Nat → α) :
    ∀ (mask : List Nat), mask.Nodup →
      ∀ (j : Nat) (t : Tensor α) (idx : Nat) (h : idx < mask.length) (g : Nat),
        writeSlotMaskFrom l0 v j mask t l0 (mask.get ⟨idx, h⟩) g = v (j + idx) g
  | [], _, _, _, idx, h, _ => absurd h (by simp)
  | m :: rest, hnd, j, t, 0, h, g => by
      show writeSlotMaskFrom l0 v j (m :: rest) t l0 m g = v (j + 0) g
      rw [writeSlotMaskFrom]
      have hm : m ∉ rest := (List.nodup_cons.mp hnd).1
      rw [writeSlotMaskFrom_notin l0 v rest (j + 1) _ l0 m g hm]
      rw [writeSlotFeat, if_pos ⟨rfl, rfl⟩, Nat.add_zero]
  | m :: rest, hnd, j, t, idx + 1, h, g => by
      rw [writeSlotMaskFrom]
      have harr : j + 1 + idx = j + (idx + 1) := by omega
      rw [← harr]
      exact writeSlotMaskFrom_get l0 v rest (List.nodup_cons.mp hnd).2 (j + 1) _
        idx (by simpa using Nat.lt_of_succ_lt_succ h) g

theorem writeSlotMask_ne_slot {α : Type} (t : Tensor α) (l0 : Nat)
    (mask : List Nat) (v : Nat → Nat → α) (l f g : Nat) (hl : l ≠ l0) :
    writeSlotMask t l0 mask v l f g = t l f g :=
  writeSlotMaskFrom_ne_slot l0 v mask 0 t l f g hl

theorem writeSlotMask_notin {α : Type} (t : Tensor α) (l0 : Nat)
    (mask : List Nat) (v : Nat → Nat → α) (l f g : Nat) (hf : f ∉ mask) :
    writeSlotMask t l0 mask v l f g = t l f g :=
  writeSlotMaskFrom_notin l0 v mask 0 t l f g hf

theorem writeSlotMask_get {α : Type} (t : Tensor α) (l0 : Nat)
    (mask : List Nat) (hnd : mask.Nodup) (v : Nat → Nat → α) (idx : Nat)
    (h : idx < mask.length) (g : Nat) :
    writeSlotMask t l0 mask v l0 (mask.get ⟨idx, h⟩) g = v idx g := by
  rw [writeSlotMask, writeSlotMaskFrom_get l0 v mask hnd 0 t idx h g, Nat.zero_add]

/-- Translation of the retrieved-fields index loop (lines 117-131): scan
the feature indices in ascending order; every input feature (kinds 'P' or
'K', by the preceding assertion) consumes the next retrieved-fields index,
appended to the prognostic or the constant retrieved mask according to its
kind. -/
def retrMasks (s : ClassSt) (N : Nat) : List Nat × List Nat :=
  let st := (List.range N).foldl
    (fun (st : List Nat × List Nat × Nat) i =>
      if s.inputs i then
        (if s.kinds i = Kind.P
          then (st.1 ++ [st.2.2], st.2.1, st.2.2 + 1)
          else (st.1, st.2.1 ++ [st.2.2], st.2.2 + 1))
      else st)
    ([], [], 0)
  (st.1, st.2.1)

/-- Number of input-kind features strictly below feature index i: the
retrieved-fields index assigned to input feature i by the scan. -/
def countInput (s : ClassSt) (i : Nat) : Nat :=
  ((List.range i).filter (fun x => s.inputs x)).length

theorem countInput_succ (s : ClassSt) (i : Nat) :
    countInput s (i + 1)
      = countInput s i + (if s.inputs i then 1 else 0) := by
  rw [countInput, countInput, List.range_succ, List.filter_append]
  by_cases h : s.inputs i
  · simp [h]
  · simp [h]

theorem retrMasks_fold (s : ClassSt) : ∀ N : Nat,
    (List.range N).foldl
      (fun (st : List Nat × List Nat × Nat) i =>
        if s.inputs i then
          (if s.kinds i = Kind.P
            then (st.1 ++ [st.2.2], st.2.1, st.2.2 + 1)
            else (st.1, st.2.1 ++ [st.2.2], st.2.2 + 1))
        else st)
      ([], [], 0)
      = (((List.range N).filter
            (fun i => s.inputs i && decide (s.kinds i = Kind.P))).map
          (countInput s),
         ((List.range N).filter
            (fun i => s.inputs i && ! decide (s.kinds i = Kind.P))).map
          (countInput s),
         countInput s N)
  | 0 => by simp [countInput]
  | N + 1 => by
      rw [List.range_succ, List.foldl_append, retrMasks_fold s N]
      simp only [List.foldl_cons, List.foldl_nil, List.filter_append,
        List.map_append, countInput_succ]
      by_cases hin : s.inputs N
      · by_cases hP : s.kinds N = Kind.P
        · simp [hin, hP]
        · simp [hin, hP]
      · simp [hin]

theorem retrMasks_eq (s : ClassSt) (N : Nat) :
    retrMasks s N
      = (((List.range N).filter
            (fun i => s.inputs i && decide (s.kinds i = Kind.P))).map
          (countInput s),
         ((List.range N).filter
            (fun i => s.inputs i && ! decide (s.kinds i = Kind.P))).map
          (countInput s)) := by
  rw [retrMasks, retrMasks_fold s N]

/-- A strictly sorted list of indices below N is recovered by filtering the
range by membership. -/
theorem filter_range_mem_eq (l : List Nat) (N : Nat)
    (hs : List.Sorted (· < ·) l) (hb : ∀ a ∈ l, a < N) :
    (List.range N).filter (fun i => decide (i ∈ l)) = l := by
  apply List.eq_of_perm_of_sorted (r := fun a b : Nat => a < b)
  · apply (List.perm_ext_iff_of_nodup ?_ ?_).mpr
    · intro a
      simp only [List.mem_filter, List.mem_range, decide_eq_true_eq]
      exact ⟨fun hh => hh.2, fun hh => ⟨hb a hh, hh⟩⟩
    · exact ((List.sorted_lt_range N).nodup).filter _
    · exact hs.nodup
  · exact (List.sorted_lt_range N).filter _
  · exact hs

/-- Translation of the reshape of the retrieved fields (lines 65-70): the
flat ordered field list becomes a (nlags, nparams, ngrid) array; R is the
per-lag retrieved-feature count len(input_fields) // len(lagged). -/
def reshapeFields {α : Type} (R : Nat) (flat : Nat → Nat → α) :
    Nat → Nat → Nat → α :=
  fun l r g => flat (l * R + r) g

/-- Translation of the input-tensor assembly (lines 146-182), generic in
the cell type (instantiated at FVal with NaN fill for the claims about the
real float32 array, and at Int when linked to the rollout).  The writes in
source order: prognostic-input and constant-from-input positions from the
reshaped retrieved fields through the retrieved-index masks; computed
constants from one forcing_and_constants call at start_datetime, written
identically into every lag slot; computed forcings from one call per lag
slot at date start_datetime + lagged[l] hours. -/
def assemble {α : Type} (fill : α)
    (prognostic_input_mask constants_from_input_mask
     computed_constants_mask computed_forcings_mask : List Nat)
    (prognostic_data_from_retrieved_fields_mask
     constant_data_from_retrieved_fields_mask : List Nat)
    (input_fields_numpy : Nat → Nat → Nat → α)
    (constantsF : Int → Nat → Nat → α) (forcingF : Int → Nat → Nat → α)
    (start_datetime : Int) (lagged_list : List Int) : Tensor α :=
  let t0 : Tensor α := fun _ _ _ => fill
  let t1 := writeMask t0 prognostic_input_mask
    (fun l j g => input_fields_numpy l
      (prognostic_data_from_retrieved_fields_mask.getD j 0) g)
  let t2 := writeMask t1 constants_from_input_mask
    (fun l j g => input_fields_numpy l
      (constant_data_from_retrieved_fields_mask.getD j 0) g)
  let t3 := writeMask t2 computed_constants_mask
    (fun _ j g => constantsF start_datetime j g)
  writeMask t3 computed_forcings_mask
    (fun l j g => forcingF (start_datetime + lagged_list.getD l 0) j g)

theorem assemble_at_cf {α : Type} (fill : α)
    (pp kk cc ff pretr kretr : List Nat)
    (fields : Nat → Nat → Nat → α) (cF fF : Int → Nat → Nat → α)
    (start : Int) (lag : List Int) (hnff : ff.Nodup)
    (idx : Nat) (h : idx < ff.length) (l g : Nat) :
    assemble fill pp kk cc ff pretr kretr fields cF fF start lag
        l (ff.get ⟨idx, h⟩) g
      = fF (start + lag.getD l 0) idx g := by
  simp only [assemble]
  rw [writeMask_get _ _ hnff _ idx h l g]

theorem assemble_at_cc {α : Type} (fill : α)
    (pp kk cc ff pretr kretr : List Nat)
    (fields : Nat → Nat → Nat → α) (cF fF : Int → Nat → Nat → α)
    (start : Int) (lag : List Int) (hncc : cc.Nodup)
    (hcf : ∀ a ∈ cc, a ∉ ff)
    (idx : Nat) (h : idx < cc.length) (l g : Nat) :
    assemble fill pp kk cc ff pretr kretr fields cF fF start lag
        l (cc.get ⟨idx, h⟩) g
      = cF start idx g := by
  simp only [assemble]
  rw [writeMask_notin _ _ _ _ _ _ (hcf _ (cc.get_mem _ _))]
  rw [writeMask_get _ _ hncc _ idx h l g]

theorem assemble_at_k {α : Type} (fill : α)
    (pp kk cc ff pretr kretr : List Nat)
    (fields : Nat → Nat → Nat → α) (cF fF : Int → Nat → Nat → α)
    (start : Int) (lag : List Int) (hnkk : kk.Nodup)
    (hkf : ∀ a ∈ kk, a ∉ ff) (hkc : ∀ a ∈ kk, a ∉ cc)
    (idx : Nat) (h : idx < kk.length) (l g : Nat) :
    assemble fill pp kk cc ff pretr kretr fields cF fF start lag
        l (kk.get ⟨idx, h⟩) g
      = fields l (kretr.getD idx 0) g := by
  simp only [assemble]
  rw [writeMask_notin _ _ _ _ _ _ (hkf _ (kk.get_mem _ _))]
  rw [writeMask_notin _ _ _ _ _ _ (hkc _ (kk.get_mem _ _))]
  rw [writeMask_get _ _ hnkk _ idx h l g]

theorem assemble_at_p {α : Type} (fill : α)
    (pp kk cc ff pretr kretr : List Nat)
    (fields : Nat → Nat → Nat → α) (cF fF : Int → Nat → Nat → α)
    (start : Int) (lag : List Int) (hnpp : pp.Nodup)
    (hpf : ∀ a ∈ pp, a ∉ ff) (hpc : ∀ a ∈ pp, a ∉ cc)
    (hpk : ∀ a ∈ pp, a ∉ kk)
    (idx : Nat) (h : idx < pp.length) (l g : Nat) :
    assemble fill pp kk cc ff pretr kretr fields cF fF start lag
        l (pp.get ⟨idx, h⟩) g
      = fields l (pretr.getD idx 0) g := by
  simp only [assemble]
  rw [writeMask_notin _ _ _ _ _ _ (hpf _ (pp.get_mem _ _))]
  rw [writeMask_notin _ _ _ _ _ _ (hpc _ (pp.get_mem _ _))]
  rw [writeMask_notin _ _ _ _ _ _ (hpk _ (pp.get_mem _ _))]
  rw [writeMask_get _ _ hnpp _ idx h l g]

theorem assemble_untouched {α : Type} (fill : α)
    (pp kk cc ff pretr kretr : List Nat)
    (fields : Nat → Nat → Nat → α) (cF fF : Int → Nat → Nat → α)
    (start : Int) (lag : List Int) (l f g : Nat)
    (hp : f ∉ pp) (hk : f ∉ kk) (hc : f ∉ cc) (hf : f ∉ ff) :
    assemble fill pp kk cc ff pretr kretr fields cF fF start lag l f g
      = fill := by
  simp only [assemble]
  rw [writeMask_notin _ _ _ _ _ _ hf, writeMask_notin _ _ _ _ _ _ hc,
    writeMask_notin _ _ _ _ _ _ hk, writeMask_notin _ _ _ _ _ _ hp]

theorem retrMasks_of_classify (N : Nat) (cc kk ff pp : List Nat)
    (m2d : Nat → Nat) (i2v : Nat → String) (s4 : ClassSt)
    (hok : classify N cc kk ff pp m2d i2v = Except.ok s4)
    (hd : masksDisjoint cc kk ff pp)
    (hsp : List.Sorted (· < ·) pp) (hsk : List.Sorted (· < ·) kk)
    (hbp : ∀ a ∈ pp, a < N) (hbk : ∀ a ∈ kk, a < N) :
    retrMasks s4 N = (pp.map (countInput s4), kk.map (countInput s4)) := by
  obtain ⟨s4', hcheck, hkinds, hinputs, hcl⟩ :=
    classify_spec N cc kk ff pp m2d i2v hd
  rw [hcl] at hok
  split_ifs at hok with hemp
  · cases hok
    rw [retrMasks_eq]
    have hfp : (List.range N).filter
        (fun i => s4.inputs i && decide (s4.kinds i = Kind.P)) = pp := by
      have hcong : ∀ i ∈ List.range N,
          (s4.inputs i && decide (s4.kinds i = Kind.P)) = decide (i ∈ pp) := by
        intro i _
        rw [hinputs i, hkinds i]
        by_cases hp : i ∈ pp
        · simp [hp]
        · by_cases hf2 : i ∈ ff
          · simp [hp, hf2]
          · by_cases hk2 : i ∈ kk
            · simp [hp, hf2, hk2]
            · by_cases hc2 : i ∈ cc
              · simp [hp, hf2, hk2, hc2]
              · simp [hp, hf2, hk2, hc2]
      rw [List.filter_congr hcong]
      exact filter_range_mem_eq pp N hsp hbp
    have hfk : (List.range N).filter
        (fun i => s4.inputs i && ! decide (s4.kinds i = Kind.P)) = kk := by
      have hcong : ∀ i ∈ List.range N,
          (s4.inputs i && ! decide (s4.kinds i = Kind.P))
            = decide (i ∈ kk) := by
        intro i _
        rw [hinputs i, hkinds i]
        by_cases hk2 : i ∈ kk
        · have hp : i ∉ pp := hd.2.2.2.2.1 i hk2
          have hf2 : i ∉ ff := hd.2.2.2.1 i hk2
          simp [hk2, hp, hf2]
        · by_cases hp : i ∈ pp
          · simp [hk2, hp]
          · simp [hk2, hp]
      rw [List.filter_congr hcong]
      exact filter_range_mem_eq kk N hsk hbk
    rw [hfp, hfk]

/-- C6: under a successful classification with index-array masks (strictly
ascending index lists inside the feature space), the retrieved-index scan
pairs the j-th prognostic (resp. constant-from-input) feature with the
retrieved column equal to its rank among the input features; the assembled
tensor is NaN wherever no mask wrote; its prognostic and
constant-from-input positions hold the retrieved field values at every lag,
matched in feature order; its computed-constant positions hold, at every
lag identically, the single constants invocation at the start datetime; and
its computed-forcing positions hold, per lag slot, the forcing invocation
at the start datetime offset by that lag's delta. -/
theorem c6_assembly_correctness
    (N : Nat) (cc kk ff pp : List Nat) (m2d : Nat → Nat) (i2v : Nat → String)
    (s4 : ClassSt)
    (hok : classify N cc kk ff pp m2d i2v = Except.ok s4)
    (hd : masksDisjoint cc kk ff pp)
    (hsp : List.Sorted (· < ·) pp) (hsk : List.Sorted (· < ·) kk)
    (hbp : ∀ a ∈ pp, a < N) (hbk : ∀ a ∈ kk, a < N)
    (hncc : cc.Nodup) (hnff : ff.Nodup)
    (input_fields_numpy : Nat → Nat → Nat → FVal)
    (constantsF forcingF : Int → Nat → Nat → FVal)
    (start : Int) (lagged_list : List Int) :
    retrMasks s4 N = (pp.map (countInput s4), kk.map (countInput s4))
  ∧ (∀ l f g, f ∉ pp → f ∉ kk → f ∉ cc → f ∉ ff →
      assemble FVal.nan pp kk cc ff (retrMasks s4 N).1 (retrMasks s4 N).2
        input_fields_numpy constantsF forcingF start lagged_list l f g
        = FVal.nan)
  ∧ (∀ j (hj : j < pp.length) (l g : Nat),
      assemble FVal.nan pp kk cc ff (retrMasks s4 N).1 (retrMasks s4 N).2
        input_fields_numpy constantsF forcingF start lagged_list
        l (pp.get ⟨j, hj⟩) g
        = input_fields_numpy l (countInput s4 (pp.get ⟨j, hj⟩)) g)
  ∧ (∀ j (hj : j < kk.length) (l g : Nat),
      assemble FVal.nan pp kk cc ff (retrMasks s4 N).1 (retrMasks s4 N).2
        input_fields_numpy constantsF forcingF start lagged_list
        l (kk.get ⟨j, hj⟩) g
        = input_fields_numpy l (countInput s4 (kk.get ⟨j, hj⟩)) g)
  ∧ (∀ j (hj : j < cc.length) (l g : Nat),
      assemble FVal.nan pp kk cc ff (retrMasks s4 N).1 (retrMasks s4 N).2
        input_fields_numpy constantsF forcingF start lagged_list
        l (cc.get ⟨j, hj⟩) g
        = constantsF start j g)
  ∧ (∀ j (hj : j < ff.length) (l g : Nat),
      assemble FVal.nan pp kk cc ff (retrMasks s4 N).1 (retrMasks s4 N).2
        input_fields_numpy constantsF forcingF start lagged_list
        l (ff.get ⟨j, hj⟩) g
        = forcingF (start + lagged_list.getD l 0) j g) := by
  have hretr := retrMasks_of_classify N cc kk ff pp m2d i2v s4 hok hd
    hsp hsk hbp hbk
  have hpf : ∀ a ∈ pp, a ∉ ff := fun a ha hf => hd.2.2.2.2.2 a hf ha
  have hpc : ∀ a ∈ pp, a ∉ cc := fun a ha hc => hd.2.2.1 a hc ha
  have hpk : ∀ a ∈ pp, a ∉ kk := fun a ha hk => hd.2.2.2.2.1 a hk ha
  have hkf : ∀ a ∈ kk, a ∉ ff := hd.2.2.2.1
  have hkc : ∀ a ∈ kk, a ∉ cc := fun a ha hc => hd.1 a hc ha
  have hcf : ∀ a ∈ cc, a ∉ ff := hd.2.1
  refine ⟨hretr, ?_, ?_, ?_, ?_, ?_⟩
  · intro l f g hp hk hc hf
    exact assemble_untouched FVal.nan pp kk cc ff _ _ input_fields_numpy
      constantsF forcingF start lagged_list l f g hp hk hc hf
  · intro j hj l g
    rw [assemble_at_p FVal.nan pp kk cc ff _ _ input_fields_numpy
      constantsF forcingF start lagged_list hsp.nodup hpf hpc hpk j hj l g]
    have hget : ((retrMasks s4 N).1).getD j 0
        = countInput s4 (pp.get ⟨j, hj⟩) := by
      rw [hretr]
      rw [List.getD_eq_getElem _ _ (by simpa using hj)]
      rw [List.getElem_map]
      rfl
    rw [hget]
  · intro j hj l g
    rw [assemble_at_k FVal.nan pp kk cc ff _ _ input_fields_numpy
      constantsF forcingF start lagged_list hsk.nodup hkf hkc j hj l g]
    have hget : ((retrMasks s4 N).2).getD j 0
        = countInput s4 (kk.get ⟨j, hj⟩) := by
      rw [hretr]
      rw [List.getD_eq_getElem _ _ (by simpa using hj)]
      rw [List.getElem_map]
      rfl
    rw [hget]
  · intro j hj l g
    exact assemble_at_cc FVal.nan pp kk cc ff _ _ input_fields_numpy
      constantsF forcingF start lagged_list hncc hcf j hj l g
  · intro j hj l g
    exact assemble_at_cf FVal.nan pp kk cc ff _ _ input_fields_numpy
      constantsF forcingF start lagged_list hnff j hj l g

/-- Classification output on the concrete 4-feature example (prognostic
[0], constant-from-input [1], computed-constant [2], computed-forcing [3]). -/
def exClassOut : ClassSt :=
  match classify 4 [2] [1] [3] [0] (fun i => i) (fun _ => "v") with
  | Except.ok s => s
  | Except.error _ => classifyInit

def c6Fields : Nat → Nat → Nat → FVal :=
  fun l r _ => FVal.num ((l : Int) * 10 + (r : Int))

def c6CF : Int → Nat → Nat → FVal := fun d j _ => FVal.num (d + (j : Int))

theorem c6_assembly_correctness_witness :
    retrMasks exClassOut 4
      = ([0].map (countInput exClassOut), [1].map (countInput exClassOut))
  ∧ assemble FVal.nan [0] [1] [2] [3] (retrMasks exClassOut 4).1
      (retrMasks exClassOut 4).2 c6Fields c6CF c6CF 100 (lagged 2 6)
      1 ([0].get ⟨0, by decide⟩) 0
      = c6Fields 1 (countInput exClassOut ([0].get ⟨0, by decide⟩)) 0 := by
  have h := c6_assembly_correctness 4 [2] [1] [3] [0] (fun i => i)
    (fun _ => "v") exClassOut rfl (by decide) (by decide) (by decide)
    (by decide) (by decide) (by decide) (by decide) c6Fields c6CF c6CF 100
    (lagged 2 6)
  exact ⟨h.1, h.2.2.1 0 (by decide) 1 0⟩

/-- Tensor component of the rollout state after one more iteration: roll of
the lag dimension, then overwrite of the newest slot at the
prognostic-input positions with the prognostic prediction and at the
computed-forcing positions with the forcing recomputed for this step's
date (lines 342-353). -/
theorem stateAfterK_tensor_succ (P : RunParams) (t0 : Tensor Int) (k : Nat) :
    (stateAfterK P t0 (k + 1)).1
      = writeSlotMask
          (writeSlotMask (rollTensor P.L (stateAfterK P t0 k).1) (P.L - 1)
            P.prognostic_input_mask
            (fun j g => P.predict_step (stateAfterK P t0 k).1
              (P.prognostic_output_mask.getD j 0) g))
          (P.L - 1) P.computed_forcings_mask
          (fun j g => P.forcing_and_constants
            (P.start_datetime + (((k + 1) * P.hour_steps : Nat) : Int)) j g) :=
  rfl

theorem rollout_const_invariant (P : RunParams) (t0 : Tensor Int)
    (cvals kvals : Nat → Nat → Int)
    (hd2 : ∀ a ∈ P.computed_constants_mask, a ∉ P.computed_forcings_mask)
    (hd3 : ∀ a ∈ P.computed_constants_mask, a ∉ P.prognostic_input_mask)
    (hd4 : ∀ a ∈ P.constants_from_input_mask, a ∉ P.computed_forcings_mask)
    (hd5 : ∀ a ∈ P.constants_from_input_mask, a ∉ P.prognostic_input_mask)
    (hbase_c : ∀ l g j (hj : j < P.computed_constants_mask.length),
      t0 l (P.computed_constants_mask.get ⟨j, hj⟩) g = cvals j g)
    (hbase_k : ∀ l g j (hj : j < P.constants_from_input_mask.length),
      t0 l (P.constants_from_input_mask.get ⟨j, hj⟩) g = kvals j g) :
    ∀ k l g,
      (∀ j (hj : j < P.computed_constants_mask.length),
        (stateAfterK P t0 k).1 l (P.computed_constants_mask.get ⟨j, hj⟩) g
          = cvals j g)
    ∧ (∀ j (hj : j < P.constants_from_input_mask.length),
        (stateAfterK P t0 k).1 l (P.constants_from_input_mask.get ⟨j, hj⟩) g
          = kvals j g) := by
  intro k
  induction k with
  | zero =>
      exact fun l g =>
        ⟨fun j hj => hbase_c l g j hj, fun j hj => hbase_k l g j hj⟩
  | succ k ih =>
      intro l g
      constructor
      · intro j hj
        rw [stateAfterK_tensor_succ]
        rw [writeSlotMask_notin _ _ _ _ _ _ _
          (hd2 _ (P.computed_constants_mask.get_mem _ _))]
        rw [writeSlotMask_notin _ _ _ _ _ _ _
          (hd3 _ (P.computed_constants_mask.get_mem _ _))]
        rw [rollTensor]
        exact (ih ((l + 1) % P.L) g).1 j hj
      · intro j hj
        rw [stateAfterK_tensor_succ]
        rw [writeSlotMask_notin _ _ _ _ _ _ _
          (hd4 _ (P.constants_from_input_mask.get_mem _ _))]
        rw [writeSlotMask_notin _ _ _ _ _ _ _
          (hd5 _ (P.constants_from_input_mask.get_mem _ _))]
        rw [rollTensor]
        exact (ih ((l + 1) % P.L) g).2 j hj

/-- C1 (amended): starting the rollout from the assembled tensor, after
every window advance the newest lag slot's prognostic-input positions hold
that step's prognostic prediction and its computed-forcing positions hold
the forcing freshly computed for that step's date; the computed-constant
positions of every lag slot always equal their values immediately after
initial assembly; and, provided the assembled constant-from-input values
are identical across lag slots (hypothesis hK, which always holds for
computed constants since they come from a single broadcast but not for
retrieved fields in general), the constant-from-input positions of every
lag slot equal their post-assembly values as well.  The L lag slots,
shape and dtype are fixed by the function embedding of the tensor. -/
theorem c1_sliding_window (P : RunParams) (pretr kretr : List Nat)
    (fieldsArr : Nat → Nat → Nat → Int) (constantsF : Int → Nat → Nat → Int)
    (lagged_list : List Int)
    (hd : masksDisjoint P.computed_constants_mask P.constants_from_input_mask
      P.computed_forcings_mask P.prognostic_input_mask)
    (hncc : P.computed_constants_mask.Nodup)
    (hnkk : P.constants_from_input_mask.Nodup)
    (hnff : P.computed_forcings_mask.Nodup)
    (hnpp : P.prognostic_input_mask.Nodup)
    (hK : ∀ l l' j, j < P.constants_from_input_mask.length → ∀ g,
      fieldsArr l (kretr.getD j 0) g = fieldsArr l' (kretr.getD j 0) g) :
    ∀ k, k < numSteps P →
    (∀ j (hj : j < P.prognostic_input_mask.length) (g : Nat),
      (stateAfterK P
          (assemble 0 P.prognostic_input_mask P.constants_from_input_mask
            P.computed_constants_mask P.computed_forcings_mask pretr kretr
            fieldsArr constantsF P.forcing_and_constants P.start_datetime
            lagged_list) (k + 1)).1
          (P.L - 1) (P.prognostic_input_mask.get ⟨j, hj⟩) g
        = P.predict_step
            (stateAfterK P
              (assemble 0 P.prognostic_input_mask P.constants_from_input_mask
                P.computed_constants_mask P.computed_forcings_mask pretr kretr
                fieldsArr constantsF P.forcing_and_constants P.start_datetime
                lagged_list) k).1
            (P.prognostic_output_mask.getD j 0) g)
  ∧ (∀ j (hj : j < P.computed_forcings_mask.length) (g : Nat),
      (stateAfterK P
          (assemble 0 P.prognostic_input_mask P.constants_from_input_mask
            P.computed_constants_mask P.computed_forcings_mask pretr kretr
            fieldsArr constantsF P.forcing_and_constants P.start_datetime
            lagged_list) (k + 1)).1
          (P.L - 1) (P.computed_forcings_mask.get ⟨j, hj⟩) g
        = P.forcing_and_constants
            (P.start_datetime + (((k + 1) * P.hour_steps : Nat) : Int)) j g)
  ∧ (∀ l, l < P.L → ∀ j (hj : j < P.computed_constants_mask.length) (g : Nat),
      (stateAfterK P
          (assemble 0 P.prognostic_input_mask P.constants_from_input_mask
            P.computed_constants_mask P.computed_forcings_mask pretr kretr
            fieldsArr constantsF P.forcing_and_constants P.start_datetime
            lagged_list) (k + 1)).1
          l (P.computed_constants_mask.get ⟨j, hj⟩) g
        = assemble 0 P.prognostic_input_mask P.constants_from_input_mask
            P.computed_constants_mask P.computed_forcings_mask pretr kretr
            fieldsArr constantsF P.forcing_and_constants P.start_datetime
            lagged_list l (P.computed_constants_mask.get ⟨j, hj⟩) g)
  ∧ (∀ l, l < P.L →
      ∀ j (hj : j < P.constants_from_input_mask.length) (g : Nat),
      (stateAfterK P
          (assemble 0 P.prognostic_input_mask P.constants_from_input_mask
            P.computed_constants_mask P.computed_forcings_mask pretr kretr
            fieldsArr constantsF P.forcing_and_constants P.start_datetime
            lagged_list) (k + 1)).1
          l (P.constants_from_input_mask.get ⟨j, hj⟩) g
        = assemble 0 P.prognostic_input_mask P.constants_from_input_mask
            P.computed_constants_mask P.computed_forcings_mask pretr kretr
            fieldsArr constantsF P.forcing_and_constants P.start_datetime
            lagged_list l (P.constants_from_input_mask.get ⟨j, hj⟩) g) := by
  have hccf : ∀ a ∈ P.computed_constants_mask, a ∉ P.computed_forcings_mask :=
    hd.2.1
  have hccp : ∀ a ∈ P.computed_constants_mask, a ∉ P.prognostic_input_mask :=
    hd.2.2.1
  have hkcf : ∀ a ∈ P.constants_from_input_mask, a ∉ P.computed_forcings_mask :=
    hd.2.2.2.1
  have hkcp : ∀ a ∈ P.constants_from_input_mask, a ∉ P.prognostic_input_mask :=
    hd.2.2.2.2.1
  have hkcc : ∀ a ∈ P.constants_from_input_mask, a ∉ P.computed_constants_mask :=
    fun a ha hc => hd.1 a hc ha
  have hpcf : ∀ a ∈ P.prognostic_input_mask, a ∉ P.computed_forcings_mask :=
    fun a ha hf => hd.2.2.2.2.2 a hf ha
  have hinv := rollout_const_invariant P
    (assemble 0 P.prognostic_input_mask P.constants_from_input_mask
      P.computed_constants_mask P.computed_forcings_mask pretr kretr
      fieldsArr constantsF P.forcing_and_constants P.start_datetime
      lagged_list)
    (fun j g => constantsF P.start_datetime j g)
    (fun j g => fieldsArr 0 (kretr.getD j 0) g)
    hccf hccp hkcf hkcp
    (fun l g j hj => assemble_at_cc 0 _ _ _ _ pretr kretr fieldsArr
      constantsF P.forcing_and_constants P.start_datetime lagged_list
      hncc hccf j hj l g)
    (fun l g j hj => by
      rw [assemble_at_k 0 _ _ _ _ pretr kretr fieldsArr constantsF
        P.forcing_and_constants P.start_datetime lagged_list
        hnkk hkcf hkcc j hj l g]
      exact hK l 0 j hj g)
  intro k _
  refine ⟨?_, ?_, ?_, ?_⟩
  · intro j hj g
    rw [stateAfterK_tensor_succ]
    rw [writeSlotMask_notin _ _ _ _ _ _ _
      (hpcf _ (P.prognostic_input_mask.get_mem _ _))]
    rw [writeSlotMask_get _ _ _ hnpp _ j hj g]
  · intro j hj g
    rw [stateAfterK_tensor_succ]
    rw [writeSlotMask_get _ _ _ hnff _ j hj g]
  · intro l _ j hj g
    rw [(hinv (k + 1) l g).1 j hj]
    rw [assemble_at_cc 0 _ _ _ _ pretr kretr fieldsArr constantsF
      P.forcing_and_constants P.start_datetime lagged_list hncc hccf j hj l g]
  · intro l _ j hj g
    rw [(hinv (k + 1) l g).2 j hj]
    rw [assemble_at_k 0 _ _ _ _ pretr kretr fieldsArr constantsF
      P.forcing_and_constants P.start_datetime lagged_list
      hnkk hkcf hkcc j hj l g]
    exact (hK 0 l j hj g)

/-- Retrieved-field values whose constant-from-input column (retrieved
index 1) differs across lag slots: 10 at lag 0, 20 at lag 1. -/
def cexFields : Nat → Nat → Nat → Int :=
  fun l r _ => if r = 1 then 10 + 10 * (l : Int) else ((l : Int) + 1)

def cexT0 : Tensor Int :=
  assemble 0 [0] [1] [2] [3] [0] [1] cexFields (fun _ _ _ => 77)
    exampleParams.forcing_and_constants 100 (lagged 2 6)

/-- C1 as literally stated is false: when the retrieved
constant-from-input values differ across lag slots (allowed by the code,
which never checks them), the torch roll carries lag slot 1's value into
lag slot 0, so after the first rollout step the ConstantFromInput position
of lag slot 0 no longer equals its value immediately after initial
assembly (20 instead of 10). -/
theorem c1_sliding_window_counterexample :
    1 ≤ numSteps exampleParams
  ∧ cexT0 0 1 0 = 10
  ∧ (stateAfterK exampleParams cexT0 1).1 0 1 0 = 20
  ∧ (stateAfterK exampleParams cexT0 1).1 0 1 0 ≠ cexT0 0 1 0 := by
  refine ⟨by decide, by decide, by decide, by decide⟩

/-- Retrieved-field values whose constant-from-input column is identical
across lag slots, satisfying the amended claim's hypothesis. -/
def wexFields : Nat → Nat → Nat → Int :=
  fun l r _ => if r = 1 then 10 else ((l : Int) + 1)

def wexT0 : Tensor Int :=
  assemble 0 [0] [1] [2] [3] [0] [1] wexFields (fun _ _ _ => 77)
    exampleParams.forcing_and_constants 100 (lagged 2 6)

theorem c1_sliding_window_witness :
    (stateAfterK exampleParams wexT0 1).1 0 1 0 = wexT0 0 1 0
  ∧ (stateAfterK exampleParams wexT0 1).1 1 3 0
      = exampleParams.forcing_and_constants
          (exampleParams.start_datetime
            + (((0 + 1) * exampleParams.hour_steps : Nat) : Int)) 0 0 := by
  have h := c1_sliding_window exampleParams [0] [1] wexFields
    (fun _ _ _ => 77) (lagged 2 6) (by decide) (by decide) (by decide)
    (by decide) (by decide)
    (by
      intro l l' j hj g
      have hj1 : j < 1 := by simpa [exampleParams] using hj
      have hj0 : j = 0 := by omega
      subst hj0
      rfl)
    0 (by decide)
  exact ⟨h.2.2.2 0 (by decide) 0 (by decide) 0, h.2.1 0 (by decide) 0⟩
